import Mathlib

/-!
Verification development for the extended-calendar note plugin.

The plugin resolves periodic notes (open-or-create), expands template
placeholders against a target date, and indexes quarterly/yearly note
folders.  The host application (vault, workspace, modal dialogs) and the
moment date library are external collaborators; they are modelled here by
explicit state and by an executable date model, while every function of the
repository itself is translated statement by statement from its source file.
-/

namespace CalendarPlugin

/-! ## Character and string utilities (models of the JS primitives used) -/

/-- JS whitespace test (the `\s` regex class and `String.prototype.trim`),
restricted to the ASCII whitespace characters. -/
def isSpaceChar (c : Char) : Bool :=
  c = ' ' || c = '\t' || c = '\n' || c = '\x0d' || c = '\x0b' || c = '\x0c'

/-- The `\d` regex class. -/
def isDigitChar (c : Char) : Bool :=
  '0' ≤ c && c ≤ '9'

/-- Decimal digit to character. -/
def digitChar (n : Nat) : Char :=
  match n with
  | 0 => '0'
  | 1 => '1'
  | 2 => '2'
  | 3 => '3'
  | 4 => '4'
  | 5 => '5'
  | 6 => '6'
  | 7 => '7'
  | 8 => '8'
  | _ => '9'

/-- Decimal digits of a natural number, most significant first (fuel-based
so that it is structurally recursive and reduces by `rfl`). -/
def natCharsAux : Nat → Nat → List Char → List Char
  | 0, n, acc => digitChar (n % 10) :: acc
  | fuel + 1, n, acc =>
      if n < 10 then digitChar n :: acc
      else natCharsAux fuel (n / 10) (digitChar (n % 10) :: acc)

/-- Decimal representation of a natural number as characters. -/
def natChars (n : Nat) : List Char :=
  natCharsAux n n []

/-- Decimal representation of an integer as characters. -/
def intChars (i : Int) : List Char :=
  if i < 0 then '-' :: natChars i.natAbs else natChars i.natAbs

/-- Left-pad a character list with zeros to the given width
(moment zero-padded numeric tokens). -/
def padZeros (w : Nat) (l : List Char) : List Char :=
  List.replicate (w - l.length) '0' ++ l

/-- Zero-padded two-digit rendering. -/
def pad2 (n : Nat) : List Char :=
  padZeros 2 (natChars n)

/-- Zero-padded four-digit rendering (the moment `YYYY` token for
non-negative years). -/
def pad4 (n : Nat) : List Char :=
  padZeros 4 (natChars n)

/-- Exact prefix match of a concrete pattern against a character list,
returning the rest of the input (model of matching a literal regex part). -/
def matchStr : List Char → List Char → Option (List Char)
  | [], l => some l
  | _ :: _, [] => none
  | p :: ps, c :: cs => if c = p then matchStr ps cs else none

/-- Case-insensitive prefix match (the regex `i` flag); the pattern is given
in lowercase. -/
def matchStrCI : List Char → List Char → Option (List Char)
  | [], l => some l
  | _ :: _, [] => none
  | p :: ps, c :: cs => if c.toLower = p then matchStrCI ps cs else none

/-- `pat` occurs as a contiguous substring of `l`
(JS `String.prototype.includes`). -/
def listIncludes (pat : List Char) : List Char → Bool
  | [] => pat.isEmpty
  | c :: rest => (matchStr pat (c :: rest)).isSome || listIncludes pat rest

/-- `String.prototype.includes` on strings. -/
def strIncludes (s pat : String) : Bool :=
  listIncludes pat.data s.data

/-- JS `||` on strings: the left operand unless it is empty (falsy). -/
def jsOr (a b : String) : String :=
  if a = "" then b else a

/-- JS `String.prototype.trim` on character lists. -/
def trimChars (l : List Char) : List Char :=
  (((l.dropWhile isSpaceChar).reverse.dropWhile isSpaceChar).reverse)

/-! ## The moment date model

The repository calls the external moment library for date arithmetic,
formatting and strict parsing.  The model below implements the documented
behaviour of the calls the source makes: calendar-day arithmetic through an
epoch-day conversion, month arithmetic with end-of-month clamping, the
format tokens the plugin settings use, and strict format-driven parsing. -/

structure MDate where
  year : Int
  month : Nat
  day : Nat
  deriving DecidableEq, Repr

structure MTime where
  hour : Nat
  minute : Nat
  second : Nat
  deriving DecidableEq, Repr

structure MDateTime where
  date : MDate
  time : MTime
  deriving DecidableEq, Repr

/-- Leap year test (proleptic Gregorian calendar). -/
def isLeapYear (y : Int) : Bool :=
  (y % 4 = 0 && y % 100 ≠ 0) || y % 400 = 0

/-- Days in a month. -/
def daysInMonth (y : Int) (m : Nat) : Nat :=
  if m = 2 then (if isLeapYear y then 29 else 28)
  else if m = 4 || m = 6 || m = 9 || m = 11 then 30
  else 31

/-- Days since 1970-01-01 of a civil date (standard civil-from-days
construction over the proleptic Gregorian calendar). -/
def daysFromCivil (d : MDate) : Int :=
  let y : Int := if d.month ≤ 2 then d.year - 1 else d.year
  let era : Int := (if 0 ≤ y then y else y - 399) / 400
  let yoe : Int := y - era * 400
  let mp : Int := (Int.ofNat d.month + 9) % 12
  let doy : Int := (153 * mp + 2) / 5 + Int.ofNat d.day - 1
  let doe : Int := yoe * 365 + yoe / 4 - yoe / 100 + doy
  era * 146097 + doe - 719468

/-- Civil date from days since 1970-01-01 (inverse of `daysFromCivil`). -/
def civilFromDays (z0 : Int) : MDate :=
  let z : Int := z0 + 719468
  let era : Int := (if 0 ≤ z then z else z - 146096) / 146097
  let doe : Int := z - era * 146097
  let yoe : Int := (doe - doe / 1460 + doe / 36524 - doe / 146096) / 365
  let y : Int := yoe + era * 400
  let doy : Int := doe - (365 * yoe + yoe / 4 - yoe / 100)
  let mp : Int := (5 * doy + 2) / 153
  let d : Int := doy - (153 * mp + 2) / 5 + 1
  let m : Int := if mp < 10 then mp + 3 else mp - 9
  { year := if m ≤ 2 then y + 1 else y, month := m.toNat, day := d.toNat }

/-- Calendar-day addition (moment adds day and week durations by calendar
days). -/
def addDays (n : Int) (t : MDateTime) : MDateTime :=
  { t with date := civilFromDays (daysFromCivil t.date + n) }

/-- Month addition with end-of-month clamping (moment adds month, quarter
and year durations this way). -/
def addMonths (n : Int) (t : MDateTime) : MDateTime :=
  let total : Int := t.date.year * 12 + (Int.ofNat t.date.month - 1) + n
  let y : Int := total.ediv 12
  let m : Nat := (total.emod 12).toNat + 1
  { t with date := { year := y, month := m, day := min t.date.day (daysInMonth y m) } }

/-- Second addition with day carry (moment adds hour, minute and second
durations as absolute time). -/
def addSeconds (n : Int) (t : MDateTime) : MDateTime :=
  let total : Int := daysFromCivil t.date * 86400
    + Int.ofNat (t.time.hour * 3600 + t.time.minute * 60 + t.time.second) + n
  let days : Int := total.ediv 86400
  let rem : Nat := (total.emod 86400).toNat
  { date := civilFromDays days
    time := { hour := rem / 3600, minute := rem % 3600 / 60, second := rem % 60 } }

/-- The unit character class of the placeholder regex, `[yqmwdhs]` under the
case-insensitive flag: exactly the unit letters y, q, m, w, d, h, s in
either case. -/
def isUnitChar (c : Char) : Bool :=
  ['y', 'q', 'm', 'w', 'd', 'h', 's', 'Y', 'Q', 'M', 'W', 'D', 'H', 'S'].contains c

/-- Model of `moment#add` for the single-character units the placeholder
regex can capture.  moment's `normalizeUnits` looks the unit up in its
alias table exactly and then retries lowercased, so the registered
shorthands are case-sensitive: `y`/`Y` are years, `Q` quarters, `M`
months, `m` minutes, `w`/`W` weeks (`W` via the isoWeek alias, which the
duration constructor reads as weeks), `d` days, `h`/`H` hours and `s`/`S`
seconds; the unregistered `q` normalizes to nothing and `D` normalizes to
`date`, which the duration constructor does not read — both are dropped,
so the add is a no-op. -/
def momentAdd (n : Int) (u : Char) (t : MDateTime) : MDateTime :=
  if u = 'y' ∨ u = 'Y' then addMonths (12 * n) t
  else if u = 'Q' then addMonths (3 * n) t
  else if u = 'M' then addMonths n t
  else if u = 'm' then addSeconds (60 * n) t
  else if u = 'w' ∨ u = 'W' then addDays (7 * n) t
  else if u = 'd' then addDays n t
  else if u = 'h' ∨ u = 'H' then addSeconds (3600 * n) t
  else if u = 's' ∨ u = 'S' then addSeconds n t
  else t

/-- Replace the time-of-day fields (the `date.clone().set({hour, minute,
second})` call in the template expander). -/
def setTimeOfDay (t : MDateTime) (tm : MTime) : MDateTime :=
  { t with time := tm }

/-- moment quarter of a month number. -/
def quarterOfMonth (m : Nat) : Nat :=
  (m + 2) / 3

/-- Whether a `[` opens a well-formed literal bracket, that is a `]` occurs
before any further `[` (the moment literal token `\[[^\[]*\]`). -/
def bracketOk : List Char → Bool
  | [] => false
  | ']' :: _ => true
  | '[' :: _ => false
  | _ :: rest => bracketOk rest

/-- Year rendering for the moment `YYYY` token: zero-padded to four digits,
with a leading minus sign for negative years. -/
def yearChars (y : Int) : List Char :=
  if y < 0 then '-' :: pad4 y.natAbs else pad4 y.natAbs

/-- Model of `moment#format` restricted to the tokens the plugin exercises:
`YYYY`, `YY`, `Q`, `MM`, `M`, `DD`, `D`, `HH`, `H`, `hh`, `h`, `mm`, `m`,
`ss`, `s`, bracket-quoted literals, and every other character taken
literally.  The boolean flag is true while inside a bracket literal. -/
def formatTokens (t : MDateTime) : Bool → List Char → List Char
  | true, [] => []
  | true, ']' :: rest => formatTokens t false rest
  | true, c :: rest => c :: formatTokens t true rest
  | false, [] => []
  | false, '[' :: rest =>
      if bracketOk rest then formatTokens t true rest
      else '[' :: formatTokens t false rest
  | false, 'Y' :: 'Y' :: 'Y' :: 'Y' :: rest => yearChars t.date.year ++ formatTokens t false rest
  | false, 'Y' :: 'Y' :: rest => pad2 (t.date.year.emod 100).toNat ++ formatTokens t false rest
  | false, 'Q' :: rest => natChars (quarterOfMonth t.date.month) ++ formatTokens t false rest
  | false, 'M' :: 'M' :: rest => pad2 t.date.month ++ formatTokens t false rest
  | false, 'M' :: rest => natChars t.date.month ++ formatTokens t false rest
  | false, 'D' :: 'D' :: rest => pad2 t.date.day ++ formatTokens t false rest
  | false, 'D' :: rest => natChars t.date.day ++ formatTokens t false rest
  | false, 'H' :: 'H' :: rest => pad2 t.time.hour ++ formatTokens t false rest
  | false, 'H' :: rest => natChars t.time.hour ++ formatTokens t false rest
  | false, 'h' :: 'h' :: rest =>
      pad2 (if t.time.hour % 12 = 0 then 12 else t.time.hour % 12) ++ formatTokens t false rest
  | false, 'h' :: rest =>
      natChars (if t.time.hour % 12 = 0 then 12 else t.time.hour % 12) ++ formatTokens t false rest
  | false, 'm' :: 'm' :: rest => pad2 t.time.minute ++ formatTokens t false rest
  | false, 'm' :: rest => natChars t.time.minute ++ formatTokens t false rest
  | false, 's' :: 's' :: rest => pad2 t.time.second ++ formatTokens t false rest
  | false, 's' :: rest => natChars t.time.second ++ formatTokens t false rest
  | false, c :: rest => c :: formatTokens t false rest

/-- `moment#format` on strings. -/
def momentFormat (t : MDateTime) (fmt : String) : String :=
  ⟨formatTokens t false fmt.data⟩

/-! ### Strict parsing (`window.moment(input, format, true)`)

The store indexers parse a file basename strictly against the configured
format.  The model supports the same token subset as `formatTokens`;
unmatched input, leftover input or out-of-range fields yield `none`, and
fields missing from the format default as moment does: the year from the
current date, lower-order fields to their minimum. -/

structure ParsedFields where
  year : Option Int := none
  month : Option Nat := none
  day : Option Nat := none
  quarter : Option Nat := none
  deriving DecidableEq, Repr

/-- Read exactly `n` leading digits as a number. -/
def takeDigits : Nat → List Char → Option (Nat × List Char)
  | 0, l => some (0, l)
  | _ + 1, [] => none
  | n + 1, c :: cs =>
      if isDigitChar c then
        match takeDigits n cs with
        | some (v, rest) => some ((c.toNat - 48) * 10 ^ n + v, rest)
        | none => none
      else none

/-- Read one or two leading digits greedily. -/
def takeDigits12 : List Char → Option (Nat × List Char)
  | [] => none
  | c :: cs =>
      if isDigitChar c then
        match cs with
        | c' :: cs' =>
            if isDigitChar c' then some ((c.toNat - 48) * 10 + (c'.toNat - 48), cs')
            else some (c.toNat - 48, c' :: cs')
        | [] => some (c.toNat - 48, [])
      else none

/-- Strict token-by-token parse of input against a format; the boolean flag
is true while inside a bracket literal, where format characters must match
the input exactly. -/
def parseTokens (acc : ParsedFields) : Bool → List Char → List Char → Option ParsedFields
  | true, [], input => if input.isEmpty then some acc else none
  | true, ']' :: fr, input => parseTokens acc false fr input
  | true, c :: fr, input =>
      match input with
      | i :: irest => if i = c then parseTokens acc true fr irest else none
      | [] => none
  | false, [], input => if input.isEmpty then some acc else none
  | false, '[' :: fr, input =>
      if bracketOk fr then parseTokens acc true fr input
      else match input with
        | '[' :: irest => parseTokens acc false fr irest
        | _ => none
  | false, 'Y' :: 'Y' :: 'Y' :: 'Y' :: fr, input =>
      match takeDigits 4 input with
      | some (v, rest) => parseTokens { acc with year := some (Int.ofNat v) } false fr rest
      | none => none
  | false, 'Y' :: 'Y' :: fr, input =>
      match takeDigits 2 input with
      | some (v, rest) => parseTokens { acc with year := some (Int.ofNat (2000 + v)) } false fr rest
      | none => none
  | false, 'Q' :: fr, input =>
      match takeDigits 1 input with
      | some (v, rest) => parseTokens { acc with quarter := some v } false fr rest
      | none => none
  | false, 'M' :: 'M' :: fr, input =>
      match takeDigits 2 input with
      | some (v, rest) => parseTokens { acc with month := some v } false fr rest
      | none => none
  | false, 'M' :: fr, input =>
      match takeDigits12 input with
      | some (v, rest) => parseTokens { acc with month := some v } false fr rest
      | none => none
  | false, 'D' :: 'D' :: fr, input =>
      match takeDigits 2 input with
      | some (v, rest) => parseTokens { acc with day := some v } false fr rest
      | none => none
  | false, 'D' :: fr, input =>
      match takeDigits12 input with
      | some (v, rest) => parseTokens { acc with day := some v } false fr rest
      | none => none
  | false, c :: fr, input =>
      match input with
      | i :: irest => if i = c then parseTokens acc false fr irest else none
      | [] => none

/-- Resolve parsed fields to a date, applying the moment defaulting rules
and the strict-mode validity checks. -/
def resolveParsed (today : MDate) (p : ParsedFields) : Option MDate :=
  let y := p.year.getD today.year
  let m := match p.month with
    | some m => m
    | none => match p.quarter with
      | some q => (q - 1) * 3 + 1
      | none => 1
  let d := p.day.getD 1
  match p.quarter with
  | some q => if 1 ≤ q ∧ q ≤ 4 ∧ 1 ≤ m ∧ m ≤ 12 ∧ 1 ≤ d ∧ d ≤ daysInMonth y m
      then some ⟨y, m, d⟩ else none
  | none => if 1 ≤ m ∧ m ≤ 12 ∧ 1 ≤ d ∧ d ≤ daysInMonth y m
      then some ⟨y, m, d⟩ else none

/-- Model of strict `window.moment(input, format, true)`, returning the
parsed date when the whole input matches the whole format and the fields
are in range. -/
def momentParseStrict (input fmt : String) (today : MDate) : Option MDate :=
  match parseTokens {} false fmt.data input.data with
  | some p => resolveParsed today p
  | none => none

/-! ## The template placeholder engine

`tryToCreateYearlyNote` (quarterlyNotes.ts, lines 228-252) expands the
template text by six sequential global regex replacements.  Each pass is
modelled by a scanner that walks the text left to right, applies the
matcher at every position, substitutes the replacement on a match and
resumes after the matched characters, exactly as a global `replace` does. -/

/-- Skip regex `\s*`. -/
def skipSpaces (l : List Char) : List Char :=
  l.dropWhile isSpaceChar

/-- Matcher for the simple placeholders `{{word}}` with inner `\s*` padding
(the regex `{{\s*word\s*}}` with the `i` flag); returns the input after the
match. -/
def matchSimple (word : List Char) (l : List Char) : Option (List Char) :=
  match matchStr ['{', '{'] l with
  | none => none
  | some l1 =>
      match matchStrCI word (skipSpaces l1) with
      | none => none
      | some l2 => matchStr ['}', '}'] (skipSpaces l2)

/-- The regex alternation `(date|time)` under the `i` flag. -/
def matchDateTimeWord (l : List Char) : Option (List Char) :=
  match matchStrCI ['d', 'a', 't', 'e'] l with
  | some r => some r
  | none => matchStrCI ['t', 'i', 'm', 'e'] l

/-- Greedy span of `\d+`. -/
def spanDigits : List Char → (List Char × List Char)
  | [] => ([], [])
  | c :: cs =>
      if isDigitChar c then
        let (ds, rest) := spanDigits cs
        (c :: ds, rest)
      else ([], c :: cs)

/-- The optional calculation group `([+-]\d+)([yqmwdhs])`: sign flag (true
for `+`), digit characters, unit character. -/
def matchCalc : List Char → Option ((Bool × List Char × Char) × List Char)
  | [] => none
  | c :: cs =>
      if c = '+' ∨ c = '-' then
        match spanDigits cs with
        | ([], _) => none
        | (ds, rest) =>
            match rest with
            | u :: rest' => if isUnitChar u then some ((c = '+', ds, u), rest') else none
            | [] => none
      else none

/-- Leading `}}` test: the tail after two closing braces. -/
def twoBraces : List Char → Option (List Char)
  | '}' :: '}' :: tail => some tail
  | _ => none

/-- The lazy custom-format group `.+?` followed by `}}`: the shortest
non-empty run of non-newline characters after which `}}` follows, returning
the captured characters and the input after the closing braces. -/
def fmtScan : List Char → Option (List Char × List Char)
  | [] => none
  | c :: rest =>
      if c = '\n' ∨ c = '\x0d' then none
      else
        match twoBraces rest with
        | some tail => some ([c], tail)
        | none =>
            match fmtScan rest with
            | some (f, tail) => some (c :: f, tail)
            | none => none

/-- Captures of the parametrized placeholder
`{{\s*(date|time)\s*(([+-]\d+)([yqmwdhs]))?\s*(:.+?)?}}`. -/
structure ParamCapture where
  offset : Option (Bool × List Char × Char)
  fmt : Option (List Char)
  deriving DecidableEq, Repr

/-- Matcher for the parametrized placeholder; the format capture holds the
characters after the leading colon (the `substring(1)` the callback takes). -/
def matchParam (l : List Char) : Option (ParamCapture × List Char) :=
  match matchStr ['{', '{'] l with
  | none => none
  | some l1 =>
      match matchDateTimeWord (skipSpaces l1) with
      | none => none
      | some l2 =>
          let (calcCap, l3) :=
            match matchCalc (skipSpaces l2) with
            | some (cap, rest) => (some cap, rest)
            | none => (none, skipSpaces l2)
          match skipSpaces l3 with
          | ':' :: rest =>
              match fmtScan rest with
              | some (f, tail) => some ({ offset := calcCap, fmt := some f }, tail)
              | none => none
          | '}' :: '}' :: tail => some ({ offset := calcCap, fmt := none }, tail)
          | _ => none

/-- `parseInt(timeDelta, 10)` on a sign flag and digit characters. -/
def signedValue (isPlus : Bool) (ds : List Char) : Int :=
  let v := ds.foldl (fun acc c => acc * 10 + (c.toNat - 48)) 0
  if isPlus then Int.ofNat v else -Int.ofNat v

/-- The replacement callback of the parametrized placeholder: take the
target date at the current wall-clock time of day, apply the signed offset
when present, and render with the trimmed custom format when given,
otherwise with the default format. -/
def paramReplacement (date now : MDateTime) (fmt : String) (cap : ParamCapture) : List Char :=
  let currentDate := setTimeOfDay date now.time
  let shifted :=
    match cap.offset with
    | some (isPlus, ds, u) => momentAdd (signedValue isPlus ds) u currentDate
    | none => currentDate
  match cap.fmt with
  | some f => (momentFormat shifted ⟨trimChars f⟩).data
  | none => (momentFormat shifted fmt).data

/-- One global-replace pass: walk the text, substitute at every match and
resume after the matched characters (fuel-based for structural recursion;
`runReplace` supplies fuel equal to the text length, which suffices because
every match consumes at least one character). -/
def scanReplaceF (step : List Char → Option (List Char × List Char)) :
    Nat → List Char → List Char
  | 0, l => l
  | _ + 1, [] => []
  | fuel + 1, c :: rest =>
      match step (c :: rest) with
      | some (repl, after) =>
          if after.length ≤ rest.length then repl ++ scanReplaceF step fuel after
          else c :: scanReplaceF step fuel rest
      | none => c :: scanReplaceF step fuel rest

/-- Global regex replacement over a character list. -/
def runReplace (step : List Char → Option (List Char × List Char)) (l : List Char) :
    List Char :=
  scanReplaceF step l.length l

/-- Step function of a simple placeholder pass with a fixed replacement. -/
def stepSimple (word repl : List Char) (l : List Char) : Option (List Char × List Char) :=
  (matchSimple word l).map fun after => (repl, after)

/-- Step function of the parametrized placeholder pass. -/
def stepParam (date now : MDateTime) (fmt : String) (l : List Char) :
    Option (List Char × List Char) :=
  (matchParam l).map fun capAfter => (paramReplacement date now fmt capAfter.1, capAfter.2)

/-- The template variable processing of `tryToCreateYearlyNote`
(quarterlyNotes.ts, lines 228-252): six sequential global replacements —
`{{date}}` and `{{title}}` by the filename, `{{time}}` by the current
wall-clock `HH:mm`, the parametrized `{{date|time...}}` form by its
callback, `{{yesterday}}` and `{{tomorrow}}` by the adjacent day rendered
with the default format. -/
def processTemplate (tpl : String) (date now : MDateTime) (format filename : String) :
    String :=
  let s1 := runReplace (stepSimple ['d', 'a', 't', 'e'] filename.data) tpl.data
  let s2 := runReplace (stepSimple ['t', 'i', 'm', 'e'] (momentFormat now "HH:mm").data) s1
  let s3 := runReplace (stepSimple ['t', 'i', 't', 'l', 'e'] filename.data) s2
  let s4 := runReplace (stepParam date now format) s3
  let s5 := runReplace
    (stepSimple ['y', 'e', 's', 't', 'e', 'r', 'd', 'a', 'y']
      (momentFormat (addDays (-1) date) format).data) s4
  let s6 := runReplace
    (stepSimple ['t', 'o', 'm', 'o', 'r', 'r', 'o', 'w']
      (momentFormat (addDays 1 date) format).data) s5
  ⟨s6⟩

/-! ## The host vault and workspace model

The resolvers act through the host collaborators of spec section 6: the
vault (get-by-path, create, create-folder), the workspace (leaf acquisition
and open-file) and the confirmation modal.  They are modelled by an
explicit state record that logs every externally visible action, plus an
environment fixing the outcomes of the calls whose results the host
chooses (creation success or failure, template resolution, the user answer
to the dialog, the wall clock). -/

/-- String trim (`String.prototype.trim`). -/
def trimS (s : String) : String :=
  ⟨trimChars s.data⟩

/-- Split a character list at every slash (JS `split("/")`). -/
def splitSlash : List Char → List (List Char)
  | [] => [[]]
  | c :: rest =>
      if c = '/' then [] :: splitSlash rest
      else
        match splitSlash rest with
        | [] => [[c]]
        | seg :: segs => (c :: seg) :: segs

/-- Join segments with slashes. -/
def joinSlash : List (List Char) → List Char
  | [] => []
  | [s] => s
  | s :: rest => s ++ '/' :: joinSlash rest

/-- Model of the host `normalizePath`: backslashes become slashes,
duplicate slashes collapse, leading and trailing slashes are removed, and
the empty path denotes the vault root. -/
def normalizePath (p : String) : String :=
  let q := p.data.map (fun c => if c = '\\' then '/' else c)
  let segs := (splitSlash q).filter (fun s => s ≠ [])
  let r := joinSlash segs
  if r = [] then "/" else ⟨r⟩

/-- What `getAbstractFileByPath` can return: a note file or a folder. -/
inductive AbstractFile where
  | tfile
  | tfolder
  deriving DecidableEq, Repr

/-- The vault as a path-indexed association list. -/
abbrev Vault := List (String × AbstractFile)

/-- Host `vault.getAbstractFileByPath`. -/
def getAbstractFileByPath (v : Vault) (p : String) : Option AbstractFile :=
  (v.find? (fun e => e.1 = p)).map (fun e => e.2)

/-- Whether a note file exists at the path (the
`existingFile && existingFile instanceof TFile` test). -/
def isTFileAt (v : Vault) (p : String) : Bool :=
  getAbstractFileByPath v p = some .tfile

/-- The externally visible state of one resolution run: the vault plus a
log of every effect the resolver performs. -/
structure RunState where
  vault : Vault
  opened : List String := []
  cbFiles : List String := []
  created : List (String × String) := []
  createdFolders : List String := []
  notices : List String := []
  logs : List String := []
  dialogs : List String := []
  deriving DecidableEq, Repr

/-- Initial state over a vault. -/
def initState (v : Vault) : RunState :=
  { vault := v }

/-- Acquire a leaf, open the file at the path in it and invoke the
callback with it (the `leaf.openFile(...); cb?.(...)` sequence). -/
def openAndCallback (p : String) (st : RunState) : RunState :=
  { st with opened := st.opened ++ [p], cbFiles := st.cbFiles ++ [p] }

/-- The user answer to a confirmation dialog; `decline` also covers
dismissal. -/
inductive ConfirmResponse where
  | accept
  | decline
  deriving DecidableEq, Repr

/-- Modelled from the spec: `createConfirmationDialog` (src/ui/modal, not
included under src/) presents a yes/no prompt with the given title and
invokes the accept continuation only when the user accepts; on decline or
dismissal nothing else runs and no side effect occurs. -/
def createConfirmationDialog (title : String) (response : ConfirmResponse)
    (onAccept : RunState → RunState × Option String) (st : RunState) :
    RunState × Option String :=
  let st := { st with dialogs := st.dialogs ++ [title] }
  match response with
  | .accept => onAccept st
  | .decline => (st, none)

/-- Outcomes of the host calls made during one creation attempt. -/
structure CreateEnv where
  confirm : ConfirmResponse
  createResult : Except String Unit
  vaultAfterFailure : Vault
  templateResolves : Bool
  templateRead : Except String String
  foldInfo : Bool
  now : MDateTime

/-- The fields of `ISettings` (src/settings, declared outside src/) that
the resolvers read. -/
structure ISettings where
  quarterlyNoteFormat : String := ""
  quarterlyNoteFolder : String := ""
  quarterlyNoteTemplate : String := ""
  shouldConfirmBeforeCreate : Bool := false
  deriving DecidableEq, Repr

/-- One period entry of the external periodic-notes plugin settings; every
field may be absent. -/
structure PeriodSettings where
  format : Option String := none
  folder : Option String := none
  template : Option String := none
  deriving DecidableEq, Repr

/-- Settings resolved for one period kind. -/
structure ResolvedSettings where
  format : String
  folder : String
  template : String
  deriving DecidableEq, Repr

/-! ### The quarterly resolver (quarterlyNotes.ts, lines 1-103) -/

namespace QuarterlyNotes

/-- `getQuarterlyNoteSettings` (lines 8-14): plugin options with falsy
fallbacks. -/
def getQuarterlyNoteSettings (s : ISettings) : ResolvedSettings :=
  { format := jsOr s.quarterlyNoteFormat "[Q]Q-YYYY"
    folder := jsOr s.quarterlyNoteFolder ""
    template := jsOr s.quarterlyNoteTemplate "" }

/-- The path computed for a quarterly note:
`normalizePath(folder + "/" + date.format(format) + ".md")`. -/
def notePath (s : ISettings) (date : MDateTime) : String :=
  let rs := getQuarterlyNoteSettings s
  normalizePath (rs.folder ++ "/" ++ momentFormat date rs.format ++ ".md")

/-- The `createFile` closure of `tryToCreateQuarterlyNote` (lines 54-91):
re-check existence, create with the default header, and in the catch
handler fall back to the existing file only for a
`File already exists` message whose file is then found. -/
def createFile (env : CreateEnv) (path filename : String) (st : RunState) :
    RunState × Option String :=
  match getAbstractFileByPath st.vault path with
  | some .tfile => (openAndCallback path st, none)
  | _ =>
      match env.createResult with
      | .ok _ =>
          let st := { st with vault := (path, .tfile) :: st.vault,
                              created := st.created ++ [(path, "# " ++ filename ++ "\n")] }
          (openAndCallback path st, none)
      | .error msg =>
          let st := { st with vault := env.vaultAfterFailure }
          if strIncludes msg "File already exists" then
            match getAbstractFileByPath st.vault path with
            | some .tfile => (openAndCallback path st, none)
            | _ => (st, some msg)
          else (st, some msg)

/-- `tryToCreateQuarterlyNote` (lines 43-103). -/
def tryToCreateQuarterlyNote (env : CreateEnv) (s : ISettings) (date : MDateTime)
    (st : RunState) : RunState × Option String :=
  let rs := getQuarterlyNoteSettings s
  let filename := momentFormat date rs.format
  let path := normalizePath (rs.folder ++ "/" ++ filename ++ ".md")
  if s.shouldConfirmBeforeCreate then
    createConfirmationDialog "New Quarterly Note" env.confirm
      (fun st => createFile env path filename st) st
  else createFile env path filename st

/-- `openOrCreateQuarterlyNote` (lines 16-38); the boolean records whether
the creation path was invoked. -/
def openOrCreateQuarterlyNote (env : CreateEnv) (s : ISettings) (date : MDateTime)
    (st : RunState) : RunState × Option String × Bool :=
  let rs := getQuarterlyNoteSettings s
  let path := normalizePath (rs.folder ++ "/" ++ momentFormat date rs.format ++ ".md")
  match getAbstractFileByPath st.vault path with
  | some .tfile => (openAndCallback path st, none, false)
  | _ =>
      let r := tryToCreateQuarterlyNote env s date st
      (r.1, r.2, true)

end QuarterlyNotes

/-! ### The template-based yearly resolver (quarterlyNotes.ts, lines
104-297) -/

namespace YearlyNotesTpl

/-- `getYearlyNoteSettings` (lines 116-136): read from the periodic-notes
plugin, defaulting every missing or falsy field. -/
def getYearlyNoteSettings (ps : Option PeriodSettings) : ResolvedSettings :=
  match ps with
  | none => { format := "YYYY", folder := "", template := "" }
  | some p =>
      { format := jsOr (p.format.getD "") "YYYY"
        folder := jsOr (trimS (p.folder.getD "")) ""
        template := jsOr (trimS (p.template.getD "")) "" }

/-- `getTemplateInfo` (lines 141-163): empty path means no template; an
unresolvable link yields the empty template silently; a read failure is
logged, notified non-fatally and also yields the empty template. -/
def getTemplateInfo (env : CreateEnv) (template : String) (st : RunState) :
    (String × Bool) × RunState :=
  let templatePath := normalizePath template
  if templatePath = "/" ∨ templatePath = "" then (("", false), st)
  else if env.templateResolves = false then (("", false), st)
  else
    match env.templateRead with
    | .ok contents => ((contents, env.foldInfo), st)
    | .error _ =>
        (("", false),
         { st with logs := st.logs ++ ["Failed to read the yearly note template"],
                   notices := st.notices ++ ["Failed to read the yearly note template"] })

/-- The path computed for a yearly note (line 201). -/
def notePath (ps : Option PeriodSettings) (date : MDateTime) : String :=
  let rs := getYearlyNoteSettings ps
  let filename := momentFormat date rs.format
  normalizePath (if rs.folder ≠ "" then rs.folder ++ "/" ++ filename ++ ".md"
                 else filename ++ ".md")

/-- The `createFile` closure of `tryToCreateYearlyNote` (lines 203-285):
re-check existence, ensure the folder, read and expand the template,
create the note with the expanded content, and in the catch handler fall
back to the existing file only for a `File already exists` message whose
file is then found. -/
def createFile (env : CreateEnv) (date : MDateTime)
    (format folder template path filename : String) (st : RunState) :
    RunState × Option String :=
  match getAbstractFileByPath st.vault path with
  | some .tfile => (openAndCallback path st, none)
  | _ =>
      let st :=
        if folder ≠ "" ∧ getAbstractFileByPath st.vault (normalizePath folder) = none then
          { st with vault := (normalizePath folder, .tfolder) :: st.vault,
                    createdFolders := st.createdFolders ++ [normalizePath folder] }
        else st
      let tplInfo := getTemplateInfo env template st
      let st := tplInfo.2
      let fileContent := processTemplate tplInfo.1.1 date env.now format filename
      match env.createResult with
      | .ok _ =>
          let st := { st with vault := (path, .tfile) :: st.vault,
                              created := st.created ++ [(path, jsOr fileContent "")] }
          (openAndCallback path st, none)
      | .error msg =>
          let st := { st with vault := env.vaultAfterFailure }
          if strIncludes msg "File already exists" then
            match getAbstractFileByPath st.vault path with
            | some .tfile => (openAndCallback path st, none)
            | _ => (st, some msg)
          else (st, some msg)

/-- `tryToCreateYearlyNote` (lines 192-297). -/
def tryToCreateYearlyNote (env : CreateEnv) (s : ISettings) (ps : Option PeriodSettings)
    (date : MDateTime) (st : RunState) : RunState × Option String :=
  let rs := getYearlyNoteSettings ps
  let filename := momentFormat date rs.format
  let path := normalizePath (if rs.folder ≠ "" then rs.folder ++ "/" ++ filename ++ ".md"
                             else filename ++ ".md")
  if s.shouldConfirmBeforeCreate then
    createConfirmationDialog "New Yearly Note" env.confirm
      (fun st => createFile env date rs.format rs.folder rs.template path filename st) st
  else createFile env date rs.format rs.folder rs.template path filename st

/-- `openOrCreateYearlyNote` (lines 165-187); the boolean records whether
the creation path was invoked. -/
def openOrCreateYearlyNote (env : CreateEnv) (s : ISettings) (ps : Option PeriodSettings)
    (date : MDateTime) (st : RunState) : RunState × Option String × Bool :=
  let path := notePath ps date
  match getAbstractFileByPath st.vault path with
  | some .tfile => (openAndCallback path st, none, false)
  | _ =>
      let r := tryToCreateYearlyNote env s ps date st
      (r.1, r.2, true)

end YearlyNotesTpl

/-! ### The fallback yearly resolver (yearlyNotes.ts) -/

namespace YearlyNotesFallback

/-- `getYearlyNoteSettingsFallback` (yearlyNotes.ts lines 8-10). -/
def getYearlyNoteSettingsFallback : ResolvedSettings :=
  { format := "YYYY", folder := "", template := "" }

/-- The path computed for a fallback yearly note. -/
def notePath (date : MDateTime) : String :=
  let rs := getYearlyNoteSettingsFallback
  normalizePath (rs.folder ++ "/" ++ momentFormat date rs.format ++ ".md")

/-- `createYearlyNoteFallback` (yearlyNotes.ts lines 12-24): return the
existing file, otherwise create one with empty content; a creation error
propagates. -/
def createYearlyNoteFallback (env : CreateEnv) (date : MDateTime) (st : RunState) :
    RunState × Except String String :=
  let path := notePath date
  match getAbstractFileByPath st.vault path with
  | some .tfile => (st, .ok path)
  | _ =>
      match env.createResult with
      | .ok _ =>
          ({ st with vault := (path, .tfile) :: st.vault,
                     created := st.created ++ [(path, "")] }, .ok path)
      | .error msg => ({ st with vault := env.vaultAfterFailure }, .error msg)

/-- The `createFile` closure of the fallback `tryToCreateYearlyNote`
(yearlyNotes.ts lines 63-71): it has no catch handler, so every creation
error propagates to the caller. -/
def createFile (env : CreateEnv) (date : MDateTime) (st : RunState) :
    RunState × Option String :=
  match createYearlyNoteFallback env date st with
  | (st, .ok path) => (openAndCallback path st, none)
  | (st, .error msg) => (st, some msg)

/-- Fallback `tryToCreateYearlyNote` (yearlyNotes.ts lines 53-83). -/
def tryToCreateYearlyNote (env : CreateEnv) (s : ISettings) (date : MDateTime)
    (st : RunState) : RunState × Option String :=
  if s.shouldConfirmBeforeCreate then
    createConfirmationDialog "New Yearly Note" env.confirm
      (fun st => createFile env date st) st
  else createFile env date st

/-- Fallback `openOrCreateYearlyNote` (yearlyNotes.ts lines 26-48); the
boolean records whether the creation path was invoked. -/
def openOrCreateYearlyNote (env : CreateEnv) (s : ISettings) (date : MDateTime)
    (st : RunState) : RunState × Option String × Bool :=
  let path := notePath date
  match getAbstractFileByPath st.vault path with
  | some .tfile => (openAndCallback path st, none, false)
  | _ =>
      let r := tryToCreateYearlyNote env s date st
      (r.1, r.2, true)

end YearlyNotesFallback

/-! ### The monthly resolver (monthlyNotes.ts) -/

namespace MonthlyNotes

/-- Outcomes of the external obsidian-daily-notes-interface calls the
monthly resolver delegates to. -/
structure MonthlyEnv where
  format : String
  create : RunState → RunState × String

/-- `tryToCreateMonthlyNote` (monthlyNotes.ts): delegate creation to the
external interface, behind the same confirmation gate. -/
def tryToCreateMonthlyNote (menv : MonthlyEnv) (env : CreateEnv) (s : ISettings)
    (date : MDateTime) (st : RunState) : RunState × Option String :=
  let _filename := momentFormat date menv.format
  let doCreate (st : RunState) : RunState × Option String :=
    let r := menv.create st
    (openAndCallback r.2 r.1, none)
  if s.shouldConfirmBeforeCreate then
    createConfirmationDialog "New Monthly Note" env.confirm doCreate st
  else doCreate st

end MonthlyNotes

/-! ## The store indexers (src/ui/stores.ts)

`getAllQuarterlyNotes` and `getAllYearlyNotes` rebuild a period-key index
by walking a configured folder.  The folder tree is modelled as a vault of
path-addressed subtrees, and `Vault.recurseChildren` as a preorder walk
collecting the basenames of the note files the callback sees.  The
returned pair carries the built index and the list of scanned files, so
that "no file is scanned" is a provable statement. -/

namespace Stores

/-- A vault subtree: a note file with its basename, or a folder with
children. -/
inductive VTree where
  | file (basename : String)
  | dir (children : List VTree)
  deriving Repr

mutual

/-- `Vault.recurseChildren` restricted to its observable effect here: the
basenames of the `TFile` nodes of the subtree, in visit order. -/
def recurseFiles : VTree → List String
  | .file b => [b]
  | .dir cs => recurseFilesList cs

/-- Preorder walk of a child list. -/
def recurseFilesList : List VTree → List String
  | [] => []
  | t :: ts => recurseFiles t ++ recurseFilesList ts

end

/-- The folder-tree vault: root paths to subtrees. -/
abbrev FolderVault := List (String × VTree)

/-- `vault.getAbstractFileByPath` over the folder-tree vault. -/
def lookupTree (v : FolderVault) (p : String) : Option VTree :=
  (v.find? (fun e => e.1 = p)).map (fun e => e.2)

/-- Stores `getQuarterlyNoteSettings` (stores.ts lines 20-33). -/
def getQuarterlyNoteSettings (ps : Option PeriodSettings) : String × String :=
  match ps with
  | none => ("YYYY-[Q]Q", "")
  | some p => (jsOr (p.format.getD "") "YYYY-[Q]Q", jsOr (trimS (p.folder.getD "")) "")

/-- Stores `getYearlyNoteSettings` (stores.ts lines 38-51). -/
def getYearlyNoteSettings (ps : Option PeriodSettings) : String × String :=
  match ps with
  | none => ("YYYY", "")
  | some p => (jsOr (p.format.getD "") "YYYY", jsOr (trimS (p.folder.getD "")) "")

/-- `getQuarterlyDateUID` (stores.ts lines 57-61). -/
def getQuarterlyDateUID (d : MDate) : String :=
  "quarter-" ++ (⟨intChars d.year⟩ : String) ++ "-"
    ++ (⟨natChars (quarterOfMonth d.month)⟩ : String)

/-- `getYearlyDateUID` (stores.ts lines 67-70). -/
def getYearlyDateUID (d : MDate) : String :=
  "year-" ++ (⟨intChars d.year⟩ : String)

/-- `format.split("/").pop() || format` (stores.ts line 78). -/
def filenamePortion (format : String) : String :=
  jsOr ⟨(splitSlash format.data).getLastD format.data⟩ format

/-- `getDateFromQuarterlyFile` (stores.ts lines 75-84): strict parse of the
basename against the filename portion of the configured format. -/
def getDateFromQuarterlyFile (ps : Option PeriodSettings) (today : MDate)
    (basename : String) : Option MDate :=
  let format := (getQuarterlyNoteSettings ps).1
  momentParseStrict basename (filenamePortion format) today

/-- `getDateFromYearlyFile` (stores.ts lines 89-98). -/
def getDateFromYearlyFile (ps : Option PeriodSettings) (today : MDate)
    (basename : String) : Option MDate :=
  let format := (getYearlyNoteSettings ps).1
  momentParseStrict basename (filenamePortion format) today

/-- JS object property assignment `record[key] = value`: replace the
binding in place or append a new one. -/
def upsert (k v : String) : List (String × String) → List (String × String)
  | [] => [(k, v)]
  | (k', v') :: rest => if k' = k then (k, v) :: rest else (k', v') :: upsert k v rest

/-- `getAllQuarterlyNotes` (stores.ts lines 103-130): empty index when no
folder is configured or the folder path resolves to nothing, otherwise one
index entry per parseable file of the walk.  The second component lists
the files scanned. -/
def getAllQuarterlyNotes (ps : Option PeriodSettings) (vault : FolderVault)
    (today : MDate) : List (String × String) × List String :=
  let folder := (getQuarterlyNoteSettings ps).2
  if folder = "" then ([], [])
  else
    match lookupTree vault (normalizePath folder) with
    | none => ([], [])
    | some root =>
        let visited := recurseFiles root
        (visited.foldl (fun acc b =>
          match getDateFromQuarterlyFile ps today b with
          | some d => upsert (getQuarterlyDateUID d) b acc
          | none => acc) [], visited)

/-- `getAllYearlyNotes` (stores.ts lines 142-169). -/
def getAllYearlyNotes (ps : Option PeriodSettings) (vault : FolderVault)
    (today : MDate) : List (String × String) × List String :=
  let folder := (getYearlyNoteSettings ps).2
  if folder = "" then ([], [])
  else
    match lookupTree vault (normalizePath folder) with
    | none => ([], [])
    | some root =>
        let visited := recurseFiles root
        (visited.foldl (fun acc b =>
          match getDateFromYearlyFile ps today b with
          | some d => upsert (getYearlyDateUID d) b acc
          | none => acc) [], visited)

end Stores

/-! ## Lemmas about the numeric and format renderers -/

theorem isDigitChar_digitChar (n : Nat) : isDigitChar (digitChar n) = true := by
  unfold digitChar
  split <;> decide

theorem mem_natCharsAux {c : Char} :
    ∀ fuel n acc, c ∈ natCharsAux fuel n acc → isDigitChar c = true ∨ c ∈ acc := by
  intro fuel
  induction fuel with
  | zero =>
      intro n acc h
      simp only [natCharsAux, List.mem_cons] at h
      rcases h with h | h
      · exact Or.inl (h ▸ isDigitChar_digitChar _)
      · exact Or.inr h
  | succ fuel ih =>
      intro n acc h
      simp only [natCharsAux] at h
      split at h
      · rcases List.mem_cons.mp h with h | h
        · exact Or.inl (h ▸ isDigitChar_digitChar _)
        · exact Or.inr h
      · rcases ih _ _ h with h | h
        · exact Or.inl h
        · rcases List.mem_cons.mp h with h | h
          · exact Or.inl (h ▸ isDigitChar_digitChar _)
          · exact Or.inr h

theorem mem_natChars {c : Char} {n : Nat} (h : c ∈ natChars n) : isDigitChar c = true := by
  rcases mem_natCharsAux _ _ _ h with h | h
  · exact h
  · simp at h

theorem mem_padZeros {c : Char} {w : Nat} {l : List Char} (h : c ∈ padZeros w l) :
    c = '0' ∨ c ∈ l := by
  rcases List.mem_append.mp h with h | h
  · exact Or.inl (List.eq_of_mem_replicate h)
  · exact Or.inr h

theorem mem_pad {c : Char} {w n : Nat} (h : c ∈ padZeros w (natChars n)) :
    isDigitChar c = true := by
  rcases mem_padZeros h with h | h
  · subst h; decide
  · exact mem_natChars h

theorem mem_yearChars {c : Char} {y : Int} (h : c ∈ yearChars y) :
    isDigitChar c = true ∨ c = '-' := by
  unfold yearChars at h
  split at h
  · rcases List.mem_cons.mp h with h | h
    · exact Or.inr h
    · exact Or.inl (mem_pad h)
  · exact Or.inl (mem_pad h)

theorem mem_trimChars {c : Char} {l : List Char} (h : c ∈ trimChars l) : c ∈ l := by
  unfold trimChars at h
  rw [List.mem_reverse] at h
  have h2 := (List.dropWhile_sublist _).subset h
  rw [List.mem_reverse] at h2
  exact (List.dropWhile_sublist _).subset h2

theorem formatTokens_no_brace {t : MDateTime} {c : Char} :
    ∀ b f, (∀ x ∈ f, x ≠ '{') → c ∈ formatTokens t b f → c ≠ '{' := by
  intro b f
  induction b, f using formatTokens.induct t with
  | case1 => intro _ h; simp [formatTokens] at h
  | case2 rest ih =>
      intro hf h
      simp only [formatTokens] at h
      exact ih (fun x hx => hf x (List.mem_cons_of_mem _ hx)) h
  | case3 c' rest hne ih =>
      intro hf h
      simp only [formatTokens] at h
      rcases List.mem_cons.mp h with h | h
      · exact h ▸ hf c' (List.mem_cons_self _ _)
      · exact ih (fun x hx => hf x (List.mem_cons_of_mem _ hx)) h
  | case4 => intro _ h; simp [formatTokens] at h
  | case5 rest hok ih =>
      intro hf h
      simp only [formatTokens, hok, if_true] at h
      exact ih (fun x hx => hf x (List.mem_cons_of_mem _ hx)) h
  | case6 rest hnok ih =>
      intro hf h
      simp only [formatTokens, hnok, if_false] at h
      rcases List.mem_cons.mp h with h | h
      · exact h ▸ hf '[' (List.mem_cons_self _ _)
      · exact ih (fun x hx => hf x (List.mem_cons_of_mem _ hx)) h
  | case7 rest ih =>
      intro hf h
      simp only [formatTokens] at h
      rcases List.mem_append.mp h with h | h
      · rcases mem_yearChars h with h | h
        · intro hEq; rw [hEq] at h; exact absurd h (by decide)
        · intro hEq; rw [hEq] at h; exact absurd h (by decide)
      · exact ih (fun x hx => hf x (by simp [hx])) h
  | case8 rest hne ih =>
      intro hf h
      simp only [formatTokens] at h
      rcases List.mem_append.mp h with h | h
      · intro hEq; rw [hEq] at h; exact absurd (mem_pad h) (by decide)
      · exact ih (fun x hx => hf x (by simp [hx])) h
  | case9 rest ih =>
      intro hf h
      simp only [formatTokens] at h
      rcases List.mem_append.mp h with h | h
      · intro hEq; rw [hEq] at h; exact absurd (mem_natChars h) (by decide)
      · exact ih (fun x hx => hf x (by simp [hx])) h
  | case10 rest ih =>
      intro hf h
      simp only [formatTokens] at h
      rcases List.mem_append.mp h with h | h
      · intro hEq; rw [hEq] at h; exact absurd (mem_pad h) (by decide)
      · exact ih (fun x hx => hf x (by simp [hx])) h
  | case11 rest hne ih =>
      intro hf h
      simp only [formatTokens] at h
      rcases List.mem_append.mp h with h | h
      · intro hEq; rw [hEq] at h; exact absurd (mem_natChars h) (by decide)
      · exact ih (fun x hx => hf x (by simp [hx])) h
  | case12 rest ih =>
      intro hf h
      simp only [formatTokens] at h
      rcases List.mem_append.mp h with h | h
      · intro hEq; rw [hEq] at h; exact absurd (mem_pad h) (by decide)
      · exact ih (fun x hx => hf x (by simp [hx])) h
  | case13 rest hne ih =>
      intro hf h
      simp only [formatTokens] at h
      rcases List.mem_append.mp h with h | h
      · intro hEq; rw [hEq] at h; exact absurd (mem_natChars h) (by decide)
      · exact ih (fun x hx => hf x (by simp [hx])) h
  | case14 rest ih =>
      intro hf h
      simp only [formatTokens] at h
      rcases List.mem_append.mp h with h | h
      · intro hEq; rw [hEq] at h; exact absurd (mem_pad h) (by decide)
      · exact ih (fun x hx => hf x (by simp [hx])) h
  | case15 rest hne ih =>
      intro hf h
      simp only [formatTokens] at h
      rcases List.mem_append.mp h with h | h
      · intro hEq; rw [hEq] at h; exact absurd (mem_natChars h) (by decide)
      · exact ih (fun x hx => hf x (by simp [hx])) h
  | case16 rest ih =>
      intro hf h
      simp only [formatTokens] at h
      rcases List.mem_append.mp h with h | h
      · intro hEq; rw [hEq] at h; exact absurd (mem_pad h) (by decide)
      · exact ih (fun x hx => hf x (by simp [hx])) h
  | case17 rest hne ih =>
      intro hf h
      simp only [formatTokens] at h
      rcases List.mem_append.mp h with h | h
      · intro hEq; rw [hEq] at h; exact absurd (mem_natChars h) (by decide)
      · exact ih (fun x hx => hf x (by simp [hx])) h
  | case18 rest ih =>
      intro hf h
      simp only [formatTokens] at h
      rcases List.mem_append.mp h with h | h
      · intro hEq; rw [hEq] at h; exact absurd (mem_pad h) (by decide)
      · exact ih (fun x hx => hf x (by simp [hx])) h
  | case19 rest hne ih =>
      intro hf h
      simp only [formatTokens] at h
      rcases List.mem_append.mp h with h | h
      · intro hEq; rw [hEq] at h; exact absurd (mem_natChars h) (by decide)
      · exact ih (fun x hx => hf x (by simp [hx])) h
  | case20 rest ih =>
      intro hf h
      simp only [formatTokens] at h
      rcases List.mem_append.mp h with h | h
      · intro hEq; rw [hEq] at h; exact absurd (mem_pad h) (by decide)
      · exact ih (fun x hx => hf x (by simp [hx])) h
  | case21 rest hne ih =>
      intro hf h
      simp only [formatTokens] at h
      rcases List.mem_append.mp h with h | h
      · intro hEq; rw [hEq] at h; exact absurd (mem_natChars h) (by decide)
      · exact ih (fun x hx => hf x (by simp [hx])) h
  | case22 c' rest h1 h2 h3 h4 h5 h6 h7 h8 h9 h10 h11 h12 h13 h14 h15 h16 ih =>
      intro hf h
      simp only [formatTokens] at h
      rcases List.mem_cons.mp h with h | h
      · exact h ▸ hf c' (List.mem_cons_self _ _)
      · exact ih (fun x hx => hf x (List.mem_cons_of_mem _ hx)) h

/-- Characters of a rendered format are format characters, digits or a
minus sign; in particular rendering a brace-free format yields no brace. -/
theorem momentFormat_no_brace {t : MDateTime} {fmt : String}
    (hf : ∀ c ∈ fmt.data, c ≠ '{') :
    ∀ c ∈ (momentFormat t fmt).data, c ≠ '{' := by
  intro c hc
  exact formatTokens_no_brace _ _ hf hc

/-! ## Lemmas about the global-replace scanner -/

theorem matchSimple_none_of_head {word : List Char} {c : Char} {l : List Char}
    (hc : c ≠ '{') : matchSimple word (c :: l) = none := by
  simp [matchSimple, matchStr, hc]

theorem stepSimple_none_of_head {word repl : List Char} {c : Char} {l : List Char}
    (hc : c ≠ '{') : stepSimple word repl (c :: l) = none := by
  simp [stepSimple, matchSimple_none_of_head hc]

theorem matchParam_none_of_head {c : Char} {l : List Char}
    (hc : c ≠ '{') : matchParam (c :: l) = none := by
  simp [matchParam, matchStr, hc]

theorem stepParam_none_of_head {date now : MDateTime} {fmt : String} {c : Char}
    {l : List Char} (hc : c ≠ '{') : stepParam date now fmt (c :: l) = none := by
  simp [stepParam, matchParam_none_of_head hc]

/-- Fuel above the input length is irrelevant. -/
theorem scanReplaceF_fuel {step : List Char → Option (List Char × List Char)} :
    ∀ fuel l, l.length ≤ fuel →
      scanReplaceF step fuel l = scanReplaceF step l.length l := by
  intro fuel
  induction fuel using Nat.strong_induction_on with
  | _ fuel ih =>
      intro l hl
      match fuel, l with
      | 0, l =>
          have : l = [] := List.eq_nil_of_length_eq_zero (Nat.le_zero.mp hl)
          subst this
          rfl
      | fuel + 1, [] => rfl
      | fuel + 1, c :: rest =>
          have hr : rest.length ≤ fuel := by simpa using hl
          show scanReplaceF step (fuel + 1) (c :: rest)
              = scanReplaceF step (rest.length + 1) (c :: rest)
          cases hstep : step (c :: rest) with
          | none =>
              simp only [scanReplaceF, hstep]
              rw [ih fuel (Nat.lt_succ_self _) rest hr]
          | some pr =>
              obtain ⟨repl, after⟩ := pr
              by_cases hle : after.length ≤ rest.length
              · simp only [scanReplaceF, hstep, hle, if_true]
                rw [ih fuel (Nat.lt_succ_self _) after (hle.trans hr),
                    ih rest.length (Nat.lt_succ_of_le hr) after hle]
              · simp only [scanReplaceF, hstep, hle, if_false]
                rw [ih fuel (Nat.lt_succ_self _) rest hr]

/-- A text in which the step matches nowhere is returned unchanged. -/
theorem scanReplaceF_id_of_nobrace {step : List Char → Option (List Char × List Char)}
    (hstep : ∀ c l, c ≠ '{' → step (c :: l) = none) :
    ∀ l fuel, (∀ c ∈ l, c ≠ '{') → scanReplaceF step fuel l = l := by
  intro l
  induction l with
  | nil => intro fuel _; cases fuel <;> rfl
  | cons c rest ih =>
      intro fuel h
      cases fuel with
      | zero => rfl
      | succ fuel =>
          simp only [scanReplaceF, hstep c rest (h c (List.mem_cons_self _ _))]
          rw [ih fuel (fun x hx => h x (List.mem_cons_of_mem _ hx))]

theorem runReplace_id_of_nobrace {step : List Char → Option (List Char × List Char)}
    (hstep : ∀ c l, c ≠ '{' → step (c :: l) = none)
    {l : List Char} (h : ∀ c ∈ l, c ≠ '{') : runReplace step l = l :=
  scanReplaceF_id_of_nobrace hstep l l.length h

/-- A brace-free prefix passes through a scan unchanged. -/
theorem scanReplaceF_append_nobrace {step : List Char → Option (List Char × List Char)}
    (hstep : ∀ c l, c ≠ '{' → step (c :: l) = none) :
    ∀ (pre rest : List Char) (fuel : Nat), (∀ c ∈ pre, c ≠ '{') →
      scanReplaceF step (pre.length + fuel) (pre ++ rest)
        = pre ++ scanReplaceF step fuel rest := by
  intro pre
  induction pre with
  | nil => intro rest fuel _; simp
  | cons c pre' ih =>
      intro rest fuel h
      have hlen : (c :: pre').length + fuel = (pre'.length + fuel) + 1 := by
        simp [Nat.add_right_comm]
      rw [hlen]
      show scanReplaceF step ((pre'.length + fuel) + 1) (c :: (pre' ++ rest)) = _
      simp only [scanReplaceF, hstep c _ (h c (List.mem_cons_self _ _))]
      rw [ih rest fuel (fun x hx => h x (List.mem_cons_of_mem _ hx))]
      rfl

theorem runReplace_append_nobrace {step : List Char → Option (List Char × List Char)}
    (hstep : ∀ c l, c ≠ '{' → step (c :: l) = none)
    {pre rest : List Char} (h : ∀ c ∈ pre, c ≠ '{') :
    runReplace step (pre ++ rest) = pre ++ runReplace step rest := by
  unfold runReplace
  rw [List.length_append]
  exact scanReplaceF_append_nobrace hstep pre rest rest.length h

/-- A match at the head of the text substitutes its replacement and the scan
continues after the matched characters. -/
theorem runReplace_head_match {step : List Char → Option (List Char × List Char)}
    {P repl suf : List Char} (hP : P ≠ [])
    (h : step (P ++ suf) = some (repl, suf)) :
    runReplace step (P ++ suf) = repl ++ runReplace step suf := by
  cases P with
  | nil => exact absurd rfl hP
  | cons c P' =>
      show scanReplaceF step ((c :: P' ++ suf).length) (c :: (P' ++ suf))
          = repl ++ runReplace step suf
      have hlen : (c :: P' ++ suf).length = (P'.length + suf.length) + 1 := by
        simp
      rw [hlen]
      simp only [List.cons_append] at h
      simp only [scanReplaceF, h]
      rw [if_pos (show suf.length ≤ (P' ++ suf).length by simp)]
      rw [scanReplaceF_fuel (P'.length + suf.length) suf (by omega)]
      rfl

/-- A step match over the whole text substitutes the replacement and scans
the declared remainder. -/
theorem runReplace_of_step {step : List Char → Option (List Char × List Char)}
    {l repl suf : List Char}
    (hlen : suf.length < l.length) (h : step l = some (repl, suf)) :
    runReplace step l = repl ++ runReplace step suf := by
  cases l with
  | nil => simp at hlen
  | cons c rest =>
      show scanReplaceF step ((c :: rest).length) (c :: rest) = _
      have hle : suf.length ≤ rest.length := by
        simpa using Nat.lt_succ_iff.mp (by simpa using hlen)
      simp only [List.length_cons, scanReplaceF, h, hle, if_true]
      rw [scanReplaceF_fuel rest.length suf hle]
      rfl

/-- Brace-freedom: the character starting a placeholder never occurs. -/
def braceFree (s : String) : Prop :=
  ∀ c ∈ s.data, c ≠ '{'

instance (s : String) : Decidable (braceFree s) :=
  inferInstanceAs (Decidable (∀ c ∈ s.data, c ≠ '{'))

/-- Two leading braces followed by a brace-free middle pass through a scan
whose step matches neither at the braces nor inside the middle. -/
theorem runReplace_brace2 (mid suf : List Char)
    {step : List Char → Option (List Char × List Char)}
    (hstep : ∀ c l, c ≠ '{' → step (c :: l) = none)
    (h0 : step ('{' :: '{' :: (mid ++ suf)) = none)
    (h1 : step ('{' :: (mid ++ suf)) = none)
    (hmid : ∀ c ∈ mid, c ≠ '{') :
    runReplace step ('{' :: '{' :: (mid ++ suf))
      = '{' :: '{' :: (mid ++ runReplace step suf) := by
  show scanReplaceF step (('{' :: '{' :: (mid ++ suf)).length) _ = _
  have hlen : ('{' :: '{' :: (mid ++ suf)).length = ((mid.length + suf.length) + 1) + 1 := by
    simp
  rw [hlen]
  simp only [scanReplaceF, h0, h1]
  rw [scanReplaceF_append_nobrace hstep mid suf suf.length hmid]
  rfl

/-! ## Lemmas about the parametrized placeholder matcher -/

theorem isUnitChar_not_digit {u : Char} (h : isUnitChar u = true) : isDigitChar u = false := by
  simp [isUnitChar] at h
  rcases h with rfl|rfl|rfl|rfl|rfl|rfl|rfl|rfl|rfl|rfl|rfl|rfl|rfl|rfl <;> decide

theorem isDigitChar_not_unit {u : Char} (h : isDigitChar u = true) : isUnitChar u = false := by
  by_contra hu
  simp only [Bool.not_eq_false] at hu
  rw [isUnitChar_not_digit hu] at h
  exact Bool.false_ne_true h

theorem spanDigits_append {ds : List Char} {u : Char} {rest : List Char}
    (hds : ∀ c ∈ ds, isDigitChar c = true) (hu : isDigitChar u = false) :
    spanDigits (ds ++ u :: rest) = (ds, u :: rest) := by
  induction ds with
  | nil => simp [spanDigits, hu]
  | cons c ds2 ih =>
      simp only [List.cons_append, spanDigits, hds c (List.mem_cons_self _ _), if_true,
        List.append_eq]
      rw [ih (fun x hx => hds x (List.mem_cons_of_mem _ hx))]

theorem twoBraces_cons_ne {x : Char} {l : List Char} (hx : x ≠ '}') :
    twoBraces (x :: l) = none := by
  unfold twoBraces
  split
  · rename_i heq
    rw [List.cons.injEq] at heq
    exact absurd heq.1 hx
  · rfl

theorem fmtScan_boundary {F s : List Char}
    (hne : F ≠ [])
    (hF : ∀ c ∈ F, c ≠ '}' ∧ c ≠ '\n' ∧ c ≠ '\x0d') :
    fmtScan (F ++ '}' :: '}' :: s) = some (F, s) := by
  induction F with
  | nil => exact absurd rfl hne
  | cons c F2 ih =>
      obtain ⟨h1, h2, h3⟩ := hF c (List.mem_cons_self _ _)
      show (if c = '\n' ∨ c = '\x0d' then none
            else
              match twoBraces (F2 ++ '}' :: '}' :: s) with
              | some tail => some ([c], tail)
              | none =>
                  match fmtScan (F2 ++ '}' :: '}' :: s) with
                  | some (f, tail) => some (c :: f, tail)
                  | none => none) = some (c :: F2, s)
      rw [if_neg (by exact fun h => h.elim h2 h3)]
      cases F2 with
      | nil => rfl
      | cons c2 F3 =>
          obtain ⟨g1, _, _⟩ := hF c2 (by simp)
          rw [List.cons_append, twoBraces_cons_ne g1]
          have ih2 := ih (by simp) (fun x hx => hF x (List.mem_cons_of_mem _ hx))
          simp only [List.cons_append] at ih2
          rw [ih2]

theorem digit_ne_brace {c : Char} (h : isDigitChar c = true) : c ≠ '{' := by
  intro hc
  rw [hc] at h
  exact absurd h (by decide)

theorem unit_ne_brace {c : Char} (h : isUnitChar c = true) : c ≠ '{' := by
  intro hc
  rw [hc] at h
  exact absurd h (by decide)

theorem matchCalc_pos {sgn : Char} (hsgn : sgn = '+' ∨ sgn = '-') {ds : List Char}
    {u : Char} {r : List Char}
    (hne : ds ≠ []) (hds : ∀ c ∈ ds, isDigitChar c = true) (hu : isUnitChar u = true) :
    matchCalc (sgn :: (ds ++ u :: r)) = some ((decide (sgn = '+'), ds, u), r) := by
  rcases hsgn with rfl | rfl <;>
  (simp only [matchCalc]
   rw [if_pos (by simp)]
   rw [spanDigits_append hds (isUnitChar_not_digit hu)]
   cases ds with
   | nil => exact absurd rfl hne
   | cons d ds2 => simp [hu])

/-- The calculation group accepts a trailing character exactly when it is a
unit character. -/
theorem matchCalc_unit_iff (c : Char) (rest : List Char) :
    (matchCalc ('+' :: '1' :: c :: '}' :: '}' :: rest)).isSome = isUnitChar c := by
  by_cases hd : isDigitChar c = true
  · have hds : ∀ x ∈ ['1', c], isDigitChar x = true := by
      intro x hx
      rcases List.mem_cons.mp hx with rfl | hx
      · decide
      · simp at hx
        subst hx
        exact hd
    have h1 : ('1' :: c :: '}' :: '}' :: rest) = ['1', c] ++ '}' :: ('}' :: rest) := rfl
    rw [h1]
    simp only [matchCalc]
    rw [if_pos (by simp)]
    rw [spanDigits_append hds (show isDigitChar '}' = false by decide)]
    simp [isDigitChar_not_unit hd, show isUnitChar '}' = false by decide]
  · have hd2 : isDigitChar c = false := by simpa using hd
    have hds : ∀ x ∈ ['1'], isDigitChar x = true := by decide
    have h1 : ('1' :: c :: '}' :: '}' :: rest) = ['1'] ++ c :: ('}' :: '}' :: rest) := rfl
    rw [h1]
    simp only [matchCalc]
    rw [if_pos (by simp)]
    rw [spanDigits_append hds hd2]
    cases hu : isUnitChar c <;> simp [hu]

theorem matchParam_calc_fmt {w : List Char}
    (hw : w = ['d', 'a', 't', 'e'] ∨ w = ['t', 'i', 'm', 'e'])
    {sgn : Char} (hsgn : sgn = '+' ∨ sgn = '-')
    {ds : List Char} (hdsne : ds ≠ []) (hds : ∀ c ∈ ds, isDigitChar c = true)
    {u : Char} (hu : isUnitChar u = true)
    {F : List Char} (hFne : F ≠ [])
    (hF : ∀ c ∈ F, c ≠ '}' ∧ c ≠ '\n' ∧ c ≠ '\x0d')
    (suf : List Char) :
    matchParam ('{' :: '{' :: (w ++ sgn :: (ds ++ u :: ':' :: (F ++ '}' :: '}' :: suf))))
      = some ({ offset := some (decide (sgn = '+'), ds, u), fmt := some F }, suf) := by
  have hcalc := matchCalc_pos (r := ':' :: (F ++ '}' :: '}' :: suf)) hsgn hdsne hds hu
  have hfmt := fmtScan_boundary (s := suf) hFne hF
  rcases hw with rfl | rfl <;> rcases hsgn with rfl | rfl <;>
    simp [matchParam, matchDateTimeWord, matchStr, matchStrCI, skipSpaces,
      isSpaceChar, hcalc, hfmt]

theorem matchParam_calc_nofmt {w : List Char}
    (hw : w = ['d', 'a', 't', 'e'] ∨ w = ['t', 'i', 'm', 'e'])
    {sgn : Char} (hsgn : sgn = '+' ∨ sgn = '-')
    {ds : List Char} (hdsne : ds ≠ []) (hds : ∀ c ∈ ds, isDigitChar c = true)
    {u : Char} (hu : isUnitChar u = true)
    (suf : List Char) :
    matchParam ('{' :: '{' :: (w ++ sgn :: (ds ++ u :: '}' :: '}' :: suf)))
      = some ({ offset := some (decide (sgn = '+'), ds, u), fmt := none }, suf) := by
  have hcalc := matchCalc_pos (r := '}' :: '}' :: suf) hsgn hdsne hds hu
  rcases hw with rfl | rfl <;> rcases hsgn with rfl | rfl <;>
    simp [matchParam, matchDateTimeWord, matchStr, matchStrCI, skipSpaces,
      isSpaceChar, hcalc]

theorem matchParam_onlyfmt {w : List Char}
    (hw : w = ['d', 'a', 't', 'e'] ∨ w = ['t', 'i', 'm', 'e'])
    {F : List Char} (hFne : F ≠ [])
    (hF : ∀ c ∈ F, c ≠ '}' ∧ c ≠ '\n' ∧ c ≠ '\x0d')
    (suf : List Char) :
    matchParam ('{' :: '{' :: (w ++ ':' :: (F ++ '}' :: '}' :: suf)))
      = some ({ offset := none, fmt := some F }, suf) := by
  have hfmt := fmtScan_boundary (s := suf) hFne hF
  rcases hw with rfl | rfl <;>
    simp [matchParam, matchDateTimeWord, matchStr, matchStrCI, skipSpaces,
      isSpaceChar, matchCalc, hfmt]

/-- Whether a matcher succeeds anywhere in the text. -/
def anyMatchO {α : Type} (m : List Char → Option α) : List Char → Bool
  | [] => false
  | c :: rest => (m (c :: rest)).isSome || anyMatchO m rest

/-- A pass whose matcher succeeds nowhere returns the text unchanged. -/
theorem scanReplaceF_id_of_noMatch {α : Type} {m : List Char → Option α}
    {step : List Char → Option (List Char × List Char)}
    (hconn : ∀ l, m l = none → step l = none) :
    ∀ l fuel, anyMatchO m l = false → scanReplaceF step fuel l = l := by
  intro l
  induction l with
  | nil => intro fuel _; cases fuel <;> rfl
  | cons c rest ih =>
      intro fuel h
      cases fuel with
      | zero => rfl
      | succ fuel =>
          cases hm : m (c :: rest) with
          | some v => exfalso; simp [anyMatchO, hm] at h
          | none =>
              simp only [scanReplaceF, hconn _ hm]
              have h2 : anyMatchO m rest = false := by
                simpa [anyMatchO, hm] using h
              rw [ih fuel h2]

/-! ## Template expansion helper theorems

Each helper states how `processTemplate` rewrites one placeholder embedded
in brace-free surrounding text: the passes before the placeholder leave it
alone, its own pass substitutes the replacement, and the later passes leave
the brace-free result unchanged. -/

theorem tplExpand_date (d now : MDateTime) (fmt filename pre suf : String)
    (hpre : braceFree pre) (hsuf : braceFree suf) (hfn : braceFree filename) :
    processTemplate (pre ++ "{{date}}" ++ suf) d now fmt filename
      = pre ++ filename ++ suf := by
  have hsimp : ∀ (word repl : List Char) (c : Char) (l : List Char), c ≠ '{' →
      stepSimple word repl (c :: l) = none :=
    fun _ _ _ _ hc => stepSimple_none_of_head hc
  apply String.ext
  show runReplace _ (runReplace _ (runReplace _ (runReplace _ (runReplace _ (runReplace _
      (pre ++ "{{date}}" ++ suf).data))))) = (pre ++ filename ++ suf).data
  have hdata : (pre ++ "{{date}}" ++ suf).data
      = pre.data ++ ("{{date}}".data ++ suf.data) := by
    simp [String.data_append]
  rw [hdata]
  have e1 : runReplace (stepSimple ['d','a','t','e'] filename.data)
      (pre.data ++ ("{{date}}".data ++ suf.data))
      = pre.data ++ (filename.data ++ suf.data) := by
    rw [runReplace_append_nobrace (hsimp ['d','a','t','e'] filename.data) hpre]
    rw [runReplace_head_match (by decide) (show stepSimple ['d','a','t','e'] filename.data
      ("{{date}}".data ++ suf.data) = some (filename.data, suf.data) from rfl)]
    rw [runReplace_id_of_nobrace (hsimp ['d','a','t','e'] filename.data) hsuf]
  rw [e1]
  have hall : ∀ c ∈ pre.data ++ (filename.data ++ suf.data), c ≠ '{' := by
    intro c hc
    rcases List.mem_append.mp hc with h | h
    · exact hpre c h
    rcases List.mem_append.mp h with h | h
    · exact hfn c h
    · exact hsuf c h
  rw [runReplace_id_of_nobrace (hsimp ['t','i','m','e'] (momentFormat now "HH:mm").data) hall]
  rw [runReplace_id_of_nobrace (hsimp ['t','i','t','l','e'] filename.data) hall]
  rw [runReplace_id_of_nobrace (fun c l hc => stepParam_none_of_head hc) hall]
  rw [runReplace_id_of_nobrace
    (hsimp ['y','e','s','t','e','r','d','a','y'] (momentFormat (addDays (-1) d) fmt).data) hall]
  rw [runReplace_id_of_nobrace
    (hsimp ['t','o','m','o','r','r','o','w'] (momentFormat (addDays 1 d) fmt).data) hall]
  simp [String.data_append]

theorem tplExpand_time (d now : MDateTime) (fmt filename pre suf : String)
    (hpre : braceFree pre) (hsuf : braceFree suf) :
    processTemplate (pre ++ "{{time}}" ++ suf) d now fmt filename
      = pre ++ momentFormat now "HH:mm" ++ suf := by
  have hsimp : ∀ (word repl : List Char) (c : Char) (l : List Char), c ≠ '{' →
      stepSimple word repl (c :: l) = none :=
    fun _ _ _ _ hc => stepSimple_none_of_head hc
  apply String.ext
  show runReplace _ (runReplace _ (runReplace _ (runReplace _ (runReplace _ (runReplace _
      (pre ++ "{{time}}" ++ suf).data))))) = _
  have hdata : (pre ++ "{{time}}" ++ suf).data
      = pre.data ++ ('{' :: '{' :: (['t','i','m','e','}','}'] ++ suf.data)) := by
    simp [String.data_append]
  rw [hdata]
  have hmid : ∀ c ∈ ['t','i','m','e','}','}'], c ≠ '{' := by decide
  rw [runReplace_append_nobrace (hsimp ['d','a','t','e'] filename.data) hpre,
      runReplace_brace2 ['t','i','m','e','}','}'] suf.data
        (hsimp ['d','a','t','e'] filename.data) rfl rfl hmid,
      runReplace_id_of_nobrace (hsimp ['d','a','t','e'] filename.data) hsuf]
  have e2 : runReplace (stepSimple ['t','i','m','e'] (momentFormat now "HH:mm").data)
      (pre.data ++ ('{' :: '{' :: (['t','i','m','e','}','}'] ++ suf.data)))
      = pre.data ++ ((momentFormat now "HH:mm").data ++ suf.data) := by
    rw [runReplace_append_nobrace (hsimp ['t','i','m','e'] (momentFormat now "HH:mm").data) hpre]
    rw [runReplace_of_step (by simp; omega) (show stepSimple ['t','i','m','e']
      (momentFormat now "HH:mm").data
      ('{' :: '{' :: (['t','i','m','e','}','}'] ++ suf.data))
      = some ((momentFormat now "HH:mm").data, suf.data) from rfl)]
    rw [runReplace_id_of_nobrace (hsimp ['t','i','m','e'] (momentFormat now "HH:mm").data) hsuf]
  rw [e2]
  have hall : ∀ c ∈ pre.data ++ ((momentFormat now "HH:mm").data ++ suf.data), c ≠ '{' := by
    intro c hc
    rcases List.mem_append.mp hc with h | h
    · exact hpre c h
    rcases List.mem_append.mp h with h | h
    · exact momentFormat_no_brace (by decide) c h
    · exact hsuf c h
  rw [runReplace_id_of_nobrace (hsimp ['t','i','t','l','e'] filename.data) hall]
  rw [runReplace_id_of_nobrace (fun c l hc => stepParam_none_of_head hc) hall]
  rw [runReplace_id_of_nobrace
    (hsimp ['y','e','s','t','e','r','d','a','y'] (momentFormat (addDays (-1) d) fmt).data) hall]
  rw [runReplace_id_of_nobrace
    (hsimp ['t','o','m','o','r','r','o','w'] (momentFormat (addDays 1 d) fmt).data) hall]
  simp [String.data_append]

theorem tplExpand_title (d now : MDateTime) (fmt filename pre suf : String)
    (hpre : braceFree pre) (hsuf : braceFree suf) (hfn : braceFree filename) :
    processTemplate (pre ++ "{{title}}" ++ suf) d now fmt filename
      = pre ++ filename ++ suf := by
  have hsimp : ∀ (word repl : List Char) (c : Char) (l : List Char), c ≠ '{' →
      stepSimple word repl (c :: l) = none :=
    fun _ _ _ _ hc => stepSimple_none_of_head hc
  apply String.ext
  show runReplace _ (runReplace _ (runReplace _ (runReplace _ (runReplace _ (runReplace _
      (pre ++ "{{title}}" ++ suf).data))))) = _
  have hdata : (pre ++ "{{title}}" ++ suf).data
      = pre.data ++ ('{' :: '{' :: (['t','i','t','l','e','}','}'] ++ suf.data)) := by
    simp [String.data_append]
  rw [hdata]
  have hmid : ∀ c ∈ ['t','i','t','l','e','}','}'], c ≠ '{' := by decide
  rw [runReplace_append_nobrace (hsimp ['d','a','t','e'] filename.data) hpre,
      runReplace_brace2 ['t','i','t','l','e','}','}'] suf.data
        (hsimp ['d','a','t','e'] filename.data) rfl rfl hmid,
      runReplace_id_of_nobrace (hsimp ['d','a','t','e'] filename.data) hsuf]
  rw [runReplace_append_nobrace (hsimp ['t','i','m','e'] (momentFormat now "HH:mm").data) hpre,
      runReplace_brace2 ['t','i','t','l','e','}','}'] suf.data
        (hsimp ['t','i','m','e'] (momentFormat now "HH:mm").data) rfl rfl hmid,
      runReplace_id_of_nobrace (hsimp ['t','i','m','e'] (momentFormat now "HH:mm").data) hsuf]
  have e3 : runReplace (stepSimple ['t','i','t','l','e'] filename.data)
      (pre.data ++ ('{' :: '{' :: (['t','i','t','l','e','}','}'] ++ suf.data)))
      = pre.data ++ (filename.data ++ suf.data) := by
    rw [runReplace_append_nobrace (hsimp ['t','i','t','l','e'] filename.data) hpre]
    rw [runReplace_of_step (by simp; omega) (show stepSimple ['t','i','t','l','e'] filename.data
      ('{' :: '{' :: (['t','i','t','l','e','}','}'] ++ suf.data))
      = some (filename.data, suf.data) from rfl)]
    rw [runReplace_id_of_nobrace (hsimp ['t','i','t','l','e'] filename.data) hsuf]
  rw [e3]
  have hall : ∀ c ∈ pre.data ++ (filename.data ++ suf.data), c ≠ '{' := by
    intro c hc
    rcases List.mem_append.mp hc with h | h
    · exact hpre c h
    rcases List.mem_append.mp h with h | h
    · exact hfn c h
    · exact hsuf c h
  rw [runReplace_id_of_nobrace (fun c l hc => stepParam_none_of_head hc) hall]
  rw [runReplace_id_of_nobrace
    (hsimp ['y','e','s','t','e','r','d','a','y'] (momentFormat (addDays (-1) d) fmt).data) hall]
  rw [runReplace_id_of_nobrace
    (hsimp ['t','o','m','o','r','r','o','w'] (momentFormat (addDays 1 d) fmt).data) hall]
  simp [String.data_append]

theorem tplExpand_yesterday (d now : MDateTime) (fmt filename pre suf : String)
    (hpre : braceFree pre) (hsuf : braceFree suf) (hfmt : braceFree fmt) :
    processTemplate (pre ++ "{{yesterday}}" ++ suf) d now fmt filename
      = pre ++ momentFormat (addDays (-1) d) fmt ++ suf := by
  have hsimp : ∀ (word repl : List Char) (c : Char) (l : List Char), c ≠ '{' →
      stepSimple word repl (c :: l) = none :=
    fun _ _ _ _ hc => stepSimple_none_of_head hc
  have hparam : ∀ (c : Char) (l : List Char), c ≠ '{' →
      stepParam d now fmt (c :: l) = none :=
    fun _ _ hc => stepParam_none_of_head hc
  apply String.ext
  show runReplace _ (runReplace _ (runReplace _ (runReplace _ (runReplace _ (runReplace _
      (pre ++ "{{yesterday}}" ++ suf).data))))) = _
  have hdata : (pre ++ "{{yesterday}}" ++ suf).data
      = pre.data ++ ('{' :: '{' ::
          (['y','e','s','t','e','r','d','a','y','}','}'] ++ suf.data)) := by
    simp [String.data_append]
  rw [hdata]
  have hmid : ∀ c ∈ ['y','e','s','t','e','r','d','a','y','}','}'], c ≠ '{' := by decide
  rw [runReplace_append_nobrace (hsimp ['d','a','t','e'] filename.data) hpre,
      runReplace_brace2 ['y','e','s','t','e','r','d','a','y','}','}'] suf.data
        (hsimp ['d','a','t','e'] filename.data) rfl rfl hmid,
      runReplace_id_of_nobrace (hsimp ['d','a','t','e'] filename.data) hsuf]
  rw [runReplace_append_nobrace (hsimp ['t','i','m','e'] (momentFormat now "HH:mm").data) hpre,
      runReplace_brace2 ['y','e','s','t','e','r','d','a','y','}','}'] suf.data
        (hsimp ['t','i','m','e'] (momentFormat now "HH:mm").data) rfl rfl hmid,
      runReplace_id_of_nobrace (hsimp ['t','i','m','e'] (momentFormat now "HH:mm").data) hsuf]
  rw [runReplace_append_nobrace (hsimp ['t','i','t','l','e'] filename.data) hpre,
      runReplace_brace2 ['y','e','s','t','e','r','d','a','y','}','}'] suf.data
        (hsimp ['t','i','t','l','e'] filename.data) rfl rfl hmid,
      runReplace_id_of_nobrace (hsimp ['t','i','t','l','e'] filename.data) hsuf]
  rw [runReplace_append_nobrace hparam hpre,
      runReplace_brace2 ['y','e','s','t','e','r','d','a','y','}','}'] suf.data hparam
        rfl rfl hmid,
      runReplace_id_of_nobrace hparam hsuf]
  have e5 : runReplace (stepSimple ['y','e','s','t','e','r','d','a','y']
        (momentFormat (addDays (-1) d) fmt).data)
      (pre.data ++ ('{' :: '{' ::
        (['y','e','s','t','e','r','d','a','y','}','}'] ++ suf.data)))
      = pre.data ++ ((momentFormat (addDays (-1) d) fmt).data ++ suf.data) := by
    rw [runReplace_append_nobrace
      (hsimp ['y','e','s','t','e','r','d','a','y'] (momentFormat (addDays (-1) d) fmt).data) hpre]
    rw [runReplace_of_step (by simp; omega) (show stepSimple ['y','e','s','t','e','r','d','a','y']
      (momentFormat (addDays (-1) d) fmt).data ('{' :: '{' ::
        (['y','e','s','t','e','r','d','a','y','}','}'] ++ suf.data))
      = some ((momentFormat (addDays (-1) d) fmt).data, suf.data) from rfl)]
    rw [runReplace_id_of_nobrace
      (hsimp ['y','e','s','t','e','r','d','a','y'] (momentFormat (addDays (-1) d) fmt).data) hsuf]
  rw [e5]
  have hall : ∀ c ∈ pre.data ++ ((momentFormat (addDays (-1) d) fmt).data ++ suf.data),
      c ≠ '{' := by
    intro c hc
    rcases List.mem_append.mp hc with h | h
    · exact hpre c h
    rcases List.mem_append.mp h with h | h
    · exact momentFormat_no_brace hfmt c h
    · exact hsuf c h
  rw [runReplace_id_of_nobrace
    (hsimp ['t','o','m','o','r','r','o','w'] (momentFormat (addDays 1 d) fmt).data) hall]
  simp [String.data_append]

theorem tplExpand_tomorrow (d now : MDateTime) (fmt filename pre suf : String)
    (hpre : braceFree pre) (hsuf : braceFree suf) :
    processTemplate (pre ++ "{{tomorrow}}" ++ suf) d now fmt filename
      = pre ++ momentFormat (addDays 1 d) fmt ++ suf := by
  have hsimp : ∀ (word repl : List Char) (c : Char) (l : List Char), c ≠ '{' →
      stepSimple word repl (c :: l) = none :=
    fun _ _ _ _ hc => stepSimple_none_of_head hc
  have hparam : ∀ (c : Char) (l : List Char), c ≠ '{' →
      stepParam d now fmt (c :: l) = none :=
    fun _ _ hc => stepParam_none_of_head hc
  apply String.ext
  show runReplace _ (runReplace _ (runReplace _ (runReplace _ (runReplace _ (runReplace _
      (pre ++ "{{tomorrow}}" ++ suf).data))))) = _
  have hdata : (pre ++ "{{tomorrow}}" ++ suf).data
      = pre.data ++ ('{' :: '{' :: (['t','o','m','o','r','r','o','w','}','}'] ++ suf.data)) := by
    simp [String.data_append]
  rw [hdata]
  have hmid : ∀ c ∈ ['t','o','m','o','r','r','o','w','}','}'], c ≠ '{' := by decide
  rw [runReplace_append_nobrace (hsimp ['d','a','t','e'] filename.data) hpre,
      runReplace_brace2 ['t','o','m','o','r','r','o','w','}','}'] suf.data
        (hsimp ['d','a','t','e'] filename.data) rfl rfl hmid,
      runReplace_id_of_nobrace (hsimp ['d','a','t','e'] filename.data) hsuf]
  rw [runReplace_append_nobrace (hsimp ['t','i','m','e'] (momentFormat now "HH:mm").data) hpre,
      runReplace_brace2 ['t','o','m','o','r','r','o','w','}','}'] suf.data
        (hsimp ['t','i','m','e'] (momentFormat now "HH:mm").data) rfl rfl hmid,
      runReplace_id_of_nobrace (hsimp ['t','i','m','e'] (momentFormat now "HH:mm").data) hsuf]
  rw [runReplace_append_nobrace (hsimp ['t','i','t','l','e'] filename.data) hpre,
      runReplace_brace2 ['t','o','m','o','r','r','o','w','}','}'] suf.data
        (hsimp ['t','i','t','l','e'] filename.data) rfl rfl hmid,
      runReplace_id_of_nobrace (hsimp ['t','i','t','l','e'] filename.data) hsuf]
  rw [runReplace_append_nobrace hparam hpre,
      runReplace_brace2 ['t','o','m','o','r','r','o','w','}','}'] suf.data hparam
        rfl rfl hmid,
      runReplace_id_of_nobrace hparam hsuf]
  rw [runReplace_append_nobrace
        (hsimp ['y','e','s','t','e','r','d','a','y'] (momentFormat (addDays (-1) d) fmt).data)
        hpre,
      runReplace_brace2 ['t','o','m','o','r','r','o','w','}','}'] suf.data
        (hsimp ['y','e','s','t','e','r','d','a','y'] (momentFormat (addDays (-1) d) fmt).data)
        rfl rfl hmid,
      runReplace_id_of_nobrace
        (hsimp ['y','e','s','t','e','r','d','a','y'] (momentFormat (addDays (-1) d) fmt).data)
        hsuf]
  have e6 : runReplace (stepSimple ['t','o','m','o','r','r','o','w']
        (momentFormat (addDays 1 d) fmt).data)
      (pre.data ++ ('{' :: '{' :: (['t','o','m','o','r','r','o','w','}','}'] ++ suf.data)))
      = pre.data ++ ((momentFormat (addDays 1 d) fmt).data ++ suf.data) := by
    rw [runReplace_append_nobrace
      (hsimp ['t','o','m','o','r','r','o','w'] (momentFormat (addDays 1 d) fmt).data) hpre]
    rw [runReplace_of_step (by simp; omega) (show stepSimple ['t','o','m','o','r','r','o','w']
      (momentFormat (addDays 1 d) fmt).data
      ('{' :: '{' :: (['t','o','m','o','r','r','o','w','}','}'] ++ suf.data))
      = some ((momentFormat (addDays 1 d) fmt).data, suf.data) from rfl)]
    rw [runReplace_id_of_nobrace
      (hsimp ['t','o','m','o','r','r','o','w'] (momentFormat (addDays 1 d) fmt).data) hsuf]
  rw [e6]
  simp [String.data_append]

theorem tplExpand_param_fmt (d now : MDateTime) (fmt filename pre suf : String)
    (hpre : braceFree pre) (hsuf : braceFree suf)
    {w : List Char} (hw : w = ['d','a','t','e'] ∨ w = ['t','i','m','e'])
    {sgn : Char} (hsgn : sgn = '+' ∨ sgn = '-')
    {ds : List Char} (hdsne : ds ≠ []) (hds : ∀ c ∈ ds, isDigitChar c = true)
    {u : Char} (hu : isUnitChar u = true)
    {F : List Char} (hFne : F ≠ [])
    (hF : ∀ c ∈ F, c ≠ '{' ∧ c ≠ '}' ∧ c ≠ '\n' ∧ c ≠ '\x0d') :
    processTemplate
        ⟨pre.data ++ '{' :: '{' :: (w ++ sgn :: (ds ++ u :: ':' :: (F ++ '}' :: '}' :: suf.data)))⟩
        d now fmt filename
      = ⟨pre.data ++ ((momentFormat (momentAdd (signedValue (decide (sgn = '+')) ds) u
          (setTimeOfDay d now.time)) ⟨trimChars F⟩).data ++ suf.data)⟩ := by
  have hF2 : ∀ c ∈ F, c ≠ '}' ∧ c ≠ '\n' ∧ c ≠ '\x0d' :=
    fun c hc => ⟨(hF c hc).2.1, (hF c hc).2.2.1, (hF c hc).2.2.2⟩
  have hsimp : ∀ (word repl : List Char) (c : Char) (l : List Char), c ≠ '{' →
      stepSimple word repl (c :: l) = none :=
    fun _ _ _ _ hc => stepSimple_none_of_head hc
  have hparam : ∀ (c : Char) (l : List Char), c ≠ '{' →
      stepParam d now fmt (c :: l) = none :=
    fun _ _ hc => stepParam_none_of_head hc
  have hshape : ('{' :: '{' :: (w ++ sgn :: (ds ++ u :: ':' :: (F ++ '}' :: '}' :: suf.data))))
      = '{' :: '{' :: ((w ++ sgn :: (ds ++ u :: ':' :: (F ++ ['}','}']))) ++ suf.data) := by
    simp
  have hmid : ∀ c ∈ w ++ sgn :: (ds ++ u :: ':' :: (F ++ ['}','}'])), c ≠ '{' := by
    intro c hc
    rcases List.mem_append.mp hc with h | h
    · rcases hw with rfl | rfl <;> (simp at h; rcases h with rfl|rfl|rfl|rfl <;> decide)
    rcases List.mem_cons.mp h with rfl | h
    · rcases hsgn with rfl | rfl <;> decide
    rcases List.mem_append.mp h with h | h
    · exact digit_ne_brace (hds c h)
    rcases List.mem_cons.mp h with rfl | h
    · exact unit_ne_brace hu
    rcases List.mem_cons.mp h with rfl | h
    · decide
    rcases List.mem_append.mp h with h | h
    · exact (hF c h).1
    · simp at h; rcases h with rfl | rfl <;> decide
  have h0date : stepSimple ['d','a','t','e'] filename.data
      ('{' :: '{' :: ((w ++ sgn :: (ds ++ u :: ':' :: (F ++ ['}','}']))) ++ suf.data)) = none := by
    rw [List.append_assoc, List.cons_append]
    rcases hw with rfl | rfl <;> rcases hsgn with rfl | rfl <;> rfl
  have h0time : stepSimple ['t','i','m','e'] (momentFormat now "HH:mm").data
      ('{' :: '{' :: ((w ++ sgn :: (ds ++ u :: ':' :: (F ++ ['}','}']))) ++ suf.data)) = none := by
    rw [List.append_assoc, List.cons_append]
    rcases hw with rfl | rfl <;> rcases hsgn with rfl | rfl <;> rfl
  have h0title : stepSimple ['t','i','t','l','e'] filename.data
      ('{' :: '{' :: ((w ++ sgn :: (ds ++ u :: ':' :: (F ++ ['}','}']))) ++ suf.data)) = none := by
    rw [List.append_assoc, List.cons_append]
    rcases hw with rfl | rfl <;> rcases hsgn with rfl | rfl <;> rfl
  have h1date : stepSimple ['d','a','t','e'] filename.data
      ('{' :: ((w ++ sgn :: (ds ++ u :: ':' :: (F ++ ['}','}']))) ++ suf.data)) = none := by
    rcases hw with rfl | rfl <;> rfl
  have h1time : stepSimple ['t','i','m','e'] (momentFormat now "HH:mm").data
      ('{' :: ((w ++ sgn :: (ds ++ u :: ':' :: (F ++ ['}','}']))) ++ suf.data)) = none := by
    rcases hw with rfl | rfl <;> rfl
  have h1title : stepSimple ['t','i','t','l','e'] filename.data
      ('{' :: ((w ++ sgn :: (ds ++ u :: ':' :: (F ++ ['}','}']))) ++ suf.data)) = none := by
    rcases hw with rfl | rfl <;> rfl
  have hown : stepParam d now fmt
      ('{' :: '{' :: ((w ++ sgn :: (ds ++ u :: ':' :: (F ++ ['}','}']))) ++ suf.data))
      = some ((momentFormat (momentAdd (signedValue (decide (sgn = '+')) ds) u
          (setTimeOfDay d now.time)) ⟨trimChars F⟩).data, suf.data) := by
    rw [← hshape]
    simp only [stepParam, matchParam_calc_fmt hw hsgn hdsne hds hu hFne hF2 suf.data]
    rfl
  apply String.ext
  show runReplace _ (runReplace _ (runReplace _ (runReplace _ (runReplace _ (runReplace _
      (pre.data ++ '{' :: '{' ::
        (w ++ sgn :: (ds ++ u :: ':' :: (F ++ '}' :: '}' :: suf.data))))))))) = _
  rw [hshape]
  rw [runReplace_append_nobrace (hsimp ['d','a','t','e'] filename.data) hpre,
      runReplace_brace2 (w ++ sgn :: (ds ++ u :: ':' :: (F ++ ['}','}']))) suf.data
        (hsimp ['d','a','t','e'] filename.data) h0date h1date hmid,
      runReplace_id_of_nobrace (hsimp ['d','a','t','e'] filename.data) hsuf]
  rw [runReplace_append_nobrace (hsimp ['t','i','m','e'] (momentFormat now "HH:mm").data) hpre,
      runReplace_brace2 (w ++ sgn :: (ds ++ u :: ':' :: (F ++ ['}','}']))) suf.data
        (hsimp ['t','i','m','e'] (momentFormat now "HH:mm").data) h0time h1time hmid,
      runReplace_id_of_nobrace (hsimp ['t','i','m','e'] (momentFormat now "HH:mm").data) hsuf]
  rw [runReplace_append_nobrace (hsimp ['t','i','t','l','e'] filename.data) hpre,
      runReplace_brace2 (w ++ sgn :: (ds ++ u :: ':' :: (F ++ ['}','}']))) suf.data
        (hsimp ['t','i','t','l','e'] filename.data) h0title h1title hmid,
      runReplace_id_of_nobrace (hsimp ['t','i','t','l','e'] filename.data) hsuf]
  have e4 : runReplace (stepParam d now fmt)
      (pre.data ++ ('{' :: '{' ::
        ((w ++ sgn :: (ds ++ u :: ':' :: (F ++ ['}','}']))) ++ suf.data)))
      = pre.data ++ ((momentFormat (momentAdd (signedValue (decide (sgn = '+')) ds) u
          (setTimeOfDay d now.time)) ⟨trimChars F⟩).data ++ suf.data) := by
    rw [runReplace_append_nobrace hparam hpre]
    rw [runReplace_of_step (by simp; omega) hown]
    rw [runReplace_id_of_nobrace hparam hsuf]
  rw [e4]
  have hall : ∀ c ∈ pre.data ++ ((momentFormat (momentAdd (signedValue (decide (sgn = '+')) ds) u
      (setTimeOfDay d now.time)) ⟨trimChars F⟩).data ++ suf.data), c ≠ '{' := by
    intro c hc
    rcases List.mem_append.mp hc with h | h
    · exact hpre c h
    rcases List.mem_append.mp h with h | h
    · exact momentFormat_no_brace (fun x hx => (hF x (mem_trimChars hx)).1) c h
    · exact hsuf c h
  rw [runReplace_id_of_nobrace
    (hsimp ['y','e','s','t','e','r','d','a','y'] (momentFormat (addDays (-1) d) fmt).data) hall]
  rw [runReplace_id_of_nobrace
    (hsimp ['t','o','m','o','r','r','o','w'] (momentFormat (addDays 1 d) fmt).data) hall]

theorem tplExpand_param_nofmt (d now : MDateTime) (fmt filename pre suf : String)
    (hpre : braceFree pre) (hsuf : braceFree suf)
    {w : List Char} (hw : w = ['d','a','t','e'] ∨ w = ['t','i','m','e'])
    {sgn : Char} (hsgn : sgn = '+' ∨ sgn = '-')
    {ds : List Char} (hdsne : ds ≠ []) (hds : ∀ c ∈ ds, isDigitChar c = true)
    {u : Char} (hu : isUnitChar u = true)
    (hfmt : braceFree fmt) :
    processTemplate
        ⟨pre.data ++ '{' :: '{' :: (w ++ sgn :: (ds ++ u :: '}' :: '}' :: suf.data))⟩
        d now fmt filename
      = ⟨pre.data ++ ((momentFormat (momentAdd (signedValue (decide (sgn = '+')) ds) u
          (setTimeOfDay d now.time)) fmt).data ++ suf.data)⟩ := by
  have hsimp : ∀ (word repl : List Char) (c : Char) (l : List Char), c ≠ '{' →
      stepSimple word repl (c :: l) = none :=
    fun _ _ _ _ hc => stepSimple_none_of_head hc
  have hparam : ∀ (c : Char) (l : List Char), c ≠ '{' →
      stepParam d now fmt (c :: l) = none :=
    fun _ _ hc => stepParam_none_of_head hc
  have hshape : ('{' :: '{' :: (w ++ sgn :: (ds ++ u :: '}' :: '}' :: suf.data)))
      = '{' :: '{' :: ((w ++ sgn :: (ds ++ [u, '}', '}'])) ++ suf.data) := by
    simp
  have hmid : ∀ c ∈ w ++ sgn :: (ds ++ [u, '}', '}']), c ≠ '{' := by
    intro c hc
    rcases List.mem_append.mp hc with h | h
    · rcases hw with rfl | rfl <;> (simp at h; rcases h with rfl|rfl|rfl|rfl <;> decide)
    rcases List.mem_cons.mp h with rfl | h
    · rcases hsgn with rfl | rfl <;> decide
    rcases List.mem_append.mp h with h | h
    · exact digit_ne_brace (hds c h)
    rcases List.mem_cons.mp h with rfl | h
    · exact unit_ne_brace hu
    · simp at h; rcases h with rfl | rfl <;> decide
  have h0date : stepSimple ['d','a','t','e'] filename.data
      ('{' :: '{' :: ((w ++ sgn :: (ds ++ [u, '}', '}'])) ++ suf.data)) = none := by
    rw [List.append_assoc, List.cons_append]
    rcases hw with rfl | rfl <;> rcases hsgn with rfl | rfl <;> rfl
  have h0time : stepSimple ['t','i','m','e'] (momentFormat now "HH:mm").data
      ('{' :: '{' :: ((w ++ sgn :: (ds ++ [u, '}', '}'])) ++ suf.data)) = none := by
    rw [List.append_assoc, List.cons_append]
    rcases hw with rfl | rfl <;> rcases hsgn with rfl | rfl <;> rfl
  have h0title : stepSimple ['t','i','t','l','e'] filename.data
      ('{' :: '{' :: ((w ++ sgn :: (ds ++ [u, '}', '}'])) ++ suf.data)) = none := by
    rw [List.append_assoc, List.cons_append]
    rcases hw with rfl | rfl <;> rcases hsgn with rfl | rfl <;> rfl
  have h1date : stepSimple ['d','a','t','e'] filename.data
      ('{' :: ((w ++ sgn :: (ds ++ [u, '}', '}'])) ++ suf.data)) = none := by
    rcases hw with rfl | rfl <;> rfl
  have h1time : stepSimple ['t','i','m','e'] (momentFormat now "HH:mm").data
      ('{' :: ((w ++ sgn :: (ds ++ [u, '}', '}'])) ++ suf.data)) = none := by
    rcases hw with rfl | rfl <;> rfl
  have h1title : stepSimple ['t','i','t','l','e'] filename.data
      ('{' :: ((w ++ sgn :: (ds ++ [u, '}', '}'])) ++ suf.data)) = none := by
    rcases hw with rfl | rfl <;> rfl
  have hown : stepParam d now fmt
      ('{' :: '{' :: ((w ++ sgn :: (ds ++ [u, '}', '}'])) ++ suf.data))
      = some ((momentFormat (momentAdd (signedValue (decide (sgn = '+')) ds) u
          (setTimeOfDay d now.time)) fmt).data, suf.data) := by
    rw [← hshape]
    simp only [stepParam, matchParam_calc_nofmt hw hsgn hdsne hds hu suf.data]
    rfl
  apply String.ext
  show runReplace _ (runReplace _ (runReplace _ (runReplace _ (runReplace _ (runReplace _
      (pre.data ++ '{' :: '{' ::
        (w ++ sgn :: (ds ++ u :: '}' :: '}' :: suf.data)))))))) = _
  rw [hshape]
  rw [runReplace_append_nobrace (hsimp ['d','a','t','e'] filename.data) hpre,
      runReplace_brace2 (w ++ sgn :: (ds ++ [u, '}', '}'])) suf.data
        (hsimp ['d','a','t','e'] filename.data) h0date h1date hmid,
      runReplace_id_of_nobrace (hsimp ['d','a','t','e'] filename.data) hsuf]
  rw [runReplace_append_nobrace (hsimp ['t','i','m','e'] (momentFormat now "HH:mm").data) hpre,
      runReplace_brace2 (w ++ sgn :: (ds ++ [u, '}', '}'])) suf.data
        (hsimp ['t','i','m','e'] (momentFormat now "HH:mm").data) h0time h1time hmid,
      runReplace_id_of_nobrace (hsimp ['t','i','m','e'] (momentFormat now "HH:mm").data) hsuf]
  rw [runReplace_append_nobrace (hsimp ['t','i','t','l','e'] filename.data) hpre,
      runReplace_brace2 (w ++ sgn :: (ds ++ [u, '}', '}'])) suf.data
        (hsimp ['t','i','t','l','e'] filename.data) h0title h1title hmid,
      runReplace_id_of_nobrace (hsimp ['t','i','t','l','e'] filename.data) hsuf]
  have e4 : runReplace (stepParam d now fmt)
      (pre.data ++ ('{' :: '{' ::
        ((w ++ sgn :: (ds ++ [u, '}', '}'])) ++ suf.data)))
      = pre.data ++ ((momentFormat (momentAdd (signedValue (decide (sgn = '+')) ds) u
          (setTimeOfDay d now.time)) fmt).data ++ suf.data) := by
    rw [runReplace_append_nobrace hparam hpre]
    rw [runReplace_of_step (by simp; omega) hown]
    rw [runReplace_id_of_nobrace hparam hsuf]
  rw [e4]
  have hall : ∀ c ∈ pre.data ++ ((momentFormat (momentAdd (signedValue (decide (sgn = '+')) ds) u
      (setTimeOfDay d now.time)) fmt).data ++ suf.data), c ≠ '{' := by
    intro c hc
    rcases List.mem_append.mp hc with h | h
    · exact hpre c h
    rcases List.mem_append.mp h with h | h
    · exact momentFormat_no_brace hfmt c h
    · exact hsuf c h
  rw [runReplace_id_of_nobrace
    (hsimp ['y','e','s','t','e','r','d','a','y'] (momentFormat (addDays (-1) d) fmt).data) hall]
  rw [runReplace_id_of_nobrace
    (hsimp ['t','o','m','o','r','r','o','w'] (momentFormat (addDays 1 d) fmt).data) hall]

theorem tplExpand_param_onlyfmt (d now : MDateTime) (fmt filename pre suf : String)
    (hpre : braceFree pre) (hsuf : braceFree suf)
    {w : List Char} (hw : w = ['d','a','t','e'] ∨ w = ['t','i','m','e'])
    {F : List Char} (hFne : F ≠ [])
    (hF : ∀ c ∈ F, c ≠ '{' ∧ c ≠ '}' ∧ c ≠ '\n' ∧ c ≠ '\x0d') :
    processTemplate
        ⟨pre.data ++ '{' :: '{' :: (w ++ ':' :: (F ++ '}' :: '}' :: suf.data))⟩
        d now fmt filename
      = ⟨pre.data ++ ((momentFormat (setTimeOfDay d now.time) ⟨trimChars F⟩).data ++ suf.data)⟩ := by
  have hF2 : ∀ c ∈ F, c ≠ '}' ∧ c ≠ '\n' ∧ c ≠ '\x0d' :=
    fun c hc => ⟨(hF c hc).2.1, (hF c hc).2.2.1, (hF c hc).2.2.2⟩
  have hsimp : ∀ (word repl : List Char) (c : Char) (l : List Char), c ≠ '{' →
      stepSimple word repl (c :: l) = none :=
    fun _ _ _ _ hc => stepSimple_none_of_head hc
  have hparam : ∀ (c : Char) (l : List Char), c ≠ '{' →
      stepParam d now fmt (c :: l) = none :=
    fun _ _ hc => stepParam_none_of_head hc
  have hshape : ('{' :: '{' :: (w ++ ':' :: (F ++ '}' :: '}' :: suf.data)))
      = '{' :: '{' :: ((w ++ ':' :: (F ++ ['}','}'])) ++ suf.data) := by
    simp
  have hmid : ∀ c ∈ w ++ ':' :: (F ++ ['}','}']), c ≠ '{' := by
    intro c hc
    rcases List.mem_append.mp hc with h | h
    · rcases hw with rfl | rfl <;> (simp at h; rcases h with rfl|rfl|rfl|rfl <;> decide)
    rcases List.mem_cons.mp h with rfl | h
    · decide
    rcases List.mem_append.mp h with h | h
    · exact (hF c h).1
    · simp at h; rcases h with rfl | rfl <;> decide
  have h0date : stepSimple ['d','a','t','e'] filename.data
      ('{' :: '{' :: ((w ++ ':' :: (F ++ ['}','}'])) ++ suf.data)) = none := by
    rw [List.append_assoc, List.cons_append]
    rcases hw with rfl | rfl <;> rfl
  have h0time : stepSimple ['t','i','m','e'] (momentFormat now "HH:mm").data
      ('{' :: '{' :: ((w ++ ':' :: (F ++ ['}','}'])) ++ suf.data)) = none := by
    rw [List.append_assoc, List.cons_append]
    rcases hw with rfl | rfl <;> rfl
  have h0title : stepSimple ['t','i','t','l','e'] filename.data
      ('{' :: '{' :: ((w ++ ':' :: (F ++ ['}','}'])) ++ suf.data)) = none := by
    rw [List.append_assoc, List.cons_append]
    rcases hw with rfl | rfl <;> rfl
  have h1date : stepSimple ['d','a','t','e'] filename.data
      ('{' :: ((w ++ ':' :: (F ++ ['}','}'])) ++ suf.data)) = none := by
    rcases hw with rfl | rfl <;> rfl
  have h1time : stepSimple ['t','i','m','e'] (momentFormat now "HH:mm").data
      ('{' :: ((w ++ ':' :: (F ++ ['}','}'])) ++ suf.data)) = none := by
    rcases hw with rfl | rfl <;> rfl
  have h1title : stepSimple ['t','i','t','l','e'] filename.data
      ('{' :: ((w ++ ':' :: (F ++ ['}','}'])) ++ suf.data)) = none := by
    rcases hw with rfl | rfl <;> rfl
  have hown : stepParam d now fmt
      ('{' :: '{' :: ((w ++ ':' :: (F ++ ['}','}'])) ++ suf.data))
      = some ((momentFormat (setTimeOfDay d now.time) ⟨trimChars F⟩).data, suf.data) := by
    rw [← hshape]
    simp only [stepParam, matchParam_onlyfmt hw hFne hF2 suf.data]
    rfl
  apply String.ext
  show runReplace _ (runReplace _ (runReplace _ (runReplace _ (runReplace _ (runReplace _
      (pre.data ++ '{' :: '{' ::
        (w ++ ':' :: (F ++ '}' :: '}' :: suf.data)))))))) = _
  rw [hshape]
  rw [runReplace_append_nobrace (hsimp ['d','a','t','e'] filename.data) hpre,
      runReplace_brace2 (w ++ ':' :: (F ++ ['}','}'])) suf.data
        (hsimp ['d','a','t','e'] filename.data) h0date h1date hmid,
      runReplace_id_of_nobrace (hsimp ['d','a','t','e'] filename.data) hsuf]
  rw [runReplace_append_nobrace (hsimp ['t','i','m','e'] (momentFormat now "HH:mm").data) hpre,
      runReplace_brace2 (w ++ ':' :: (F ++ ['}','}'])) suf.data
        (hsimp ['t','i','m','e'] (momentFormat now "HH:mm").data) h0time h1time hmid,
      runReplace_id_of_nobrace (hsimp ['t','i','m','e'] (momentFormat now "HH:mm").data) hsuf]
  rw [runReplace_append_nobrace (hsimp ['t','i','t','l','e'] filename.data) hpre,
      runReplace_brace2 (w ++ ':' :: (F ++ ['}','}'])) suf.data
        (hsimp ['t','i','t','l','e'] filename.data) h0title h1title hmid,
      runReplace_id_of_nobrace (hsimp ['t','i','t','l','e'] filename.data) hsuf]
  have e4 : runReplace (stepParam d now fmt)
      (pre.data ++ ('{' :: '{' ::
        ((w ++ ':' :: (F ++ ['}','}'])) ++ suf.data)))
      = pre.data ++ ((momentFormat (setTimeOfDay d now.time) ⟨trimChars F⟩).data ++ suf.data) := by
    rw [runReplace_append_nobrace hparam hpre]
    rw [runReplace_of_step (by simp; omega) hown]
    rw [runReplace_id_of_nobrace hparam hsuf]
  rw [e4]
  have hall : ∀ c ∈ pre.data ++ ((momentFormat (setTimeOfDay d now.time) ⟨trimChars F⟩).data ++ suf.data), c ≠ '{' := by
    intro c hc
    rcases List.mem_append.mp hc with h | h
    · exact hpre c h
    rcases List.mem_append.mp h with h | h
    · exact momentFormat_no_brace (fun x hx => (hF x (mem_trimChars hx)).1) c h
    · exact hsuf c h
  rw [runReplace_id_of_nobrace
    (hsimp ['y','e','s','t','e','r','d','a','y'] (momentFormat (addDays (-1) d) fmt).data) hall]
  rw [runReplace_id_of_nobrace
    (hsimp ['t','o','m','o','r','r','o','w'] (momentFormat (addDays 1 d) fmt).data) hall]

theorem natCharsAux_length_le : ∀ (fuel n : Nat) (acc : List Char) (k : Nat), 1 ≤ k → n < 10 ^ k →
    (natCharsAux fuel n acc).length ≤ k + acc.length := by
  intro fuel
  induction fuel with
  | zero =>
      intro n acc k hk _
      simp only [natCharsAux, List.length_cons]
      omega
  | succ fuel ih =>
      intro n acc k hk hn
      simp only [natCharsAux]
      split
      · simp only [List.length_cons]
        omega
      · rename_i hge
        push_neg at hge
        have hk2 : 2 ≤ k := by
          by_contra hlt
          push_neg at hlt
          interval_cases k
          · simp at hn
            omega
        have hpow : 10 ^ k = 10 ^ (k - 1) * 10 := by
          rw [← pow_succ]
          congr 1
          omega
        have hdiv : n / 10 < 10 ^ (k - 1) := by
          rw [Nat.div_lt_iff_lt_mul (by norm_num)]
          omega
        have hrec := ih (n / 10) (digitChar (n % 10) :: acc) (k - 1) (by omega) hdiv
        simp only [List.length_cons] at hrec
        omega

theorem pad4_length {n : Nat} (h : n ≤ 9999) : (pad4 n).length = 4 := by
  have hlen : (natChars n).length ≤ 4 :=
    natCharsAux_length_le n n [] 4 (by omega) (by simpa using Nat.lt_succ_of_le h)
  simp only [pad4, padZeros, List.length_append, List.length_replicate]
  omega


/-- The six placeholder matchers of the template passes, tested anywhere in
the text: a template with no recognized placeholder is one on which all six
fail at every position. -/
def noRecognizedPlaceholder (tpl : String) : Bool :=
  !(anyMatchO (matchSimple ['d','a','t','e']) tpl.data)
  && !(anyMatchO (matchSimple ['t','i','m','e']) tpl.data)
  && !(anyMatchO (matchSimple ['t','i','t','l','e']) tpl.data)
  && !(anyMatchO matchParam tpl.data)
  && !(anyMatchO (matchSimple ['y','e','s','t','e','r','d','a','y']) tpl.data)
  && !(anyMatchO (matchSimple ['t','o','m','o','r','r','o','w']) tpl.data)

theorem stepSimple_none_of_matchSimple {word repl : List Char} {l : List Char}
    (h : matchSimple word l = none) : stepSimple word repl l = none := by
  simp [stepSimple, h]

theorem stepParam_none_of_matchParam {date now : MDateTime} {fmt : String} {l : List Char}
    (h : matchParam l = none) : stepParam date now fmt l = none := by
  simp [stepParam, h]

/-- C3 counterexample: the placeholder regex accepts the unit letters
y, q, m, w, d, h, s in either case, but the captured unit reaches
`moment#add` case-sensitively, so not every accepted unit shifts the
date: `{{date+2q}}` and `{{date+1D}}` are consumed and replaced by the
unshifted target date (moment drops the unregistered duration keys `q`
and `date`), and `{{date+1M}}` shifts by one month (with end-of-month
clamping), not by the offset a quarter/day/uniform-unit reading of the
claim would give. -/
theorem C3_counterexample :
    (processTemplate "{{date+2q}}" ⟨⟨2026, 1, 31⟩, ⟨0, 0, 0⟩⟩
        ⟨⟨2026, 5, 12⟩, ⟨9, 30, 0⟩⟩ "YYYY-MM-DD" "x" = "2026-01-31"
    ∧ ("2026-01-31" : String) ≠ "2026-07-31")
    ∧ (processTemplate "{{date+1D}}" ⟨⟨2026, 1, 31⟩, ⟨0, 0, 0⟩⟩
        ⟨⟨2026, 5, 12⟩, ⟨9, 30, 0⟩⟩ "YYYY-MM-DD" "x" = "2026-01-31"
    ∧ ("2026-01-31" : String) ≠ "2026-02-01")
    ∧ processTemplate "{{date+1M}}" ⟨⟨2026, 1, 31⟩, ⟨0, 0, 0⟩⟩
        ⟨⟨2026, 5, 12⟩, ⟨9, 30, 0⟩⟩ "YYYY-MM-DD" "x" = "2026-02-28" := by
  exact ⟨⟨rfl, by decide⟩, ⟨rfl, by decide⟩, rfl⟩

/-- C3 (amended): template expansion replaces each recognized placeholder
as the source describes.  Within brace-free surrounding text: `{{date}}`
and `{{title}}` become the formatted filename, `{{time}}` the current
wall-clock time `HH:mm`, `{{yesterday}}` and `{{tomorrow}}` the adjacent
day rendered with the default format, and the parametrized
`{{date|time±Nunit:customFormat}}` becomes the target date (at the current
wall-clock time of day) transformed by `moment#add` with the signed offset
and the captured unit, rendered with the trimmed custom format when given,
otherwise with the default format.  Matching is case-insensitive and the
placeholder accepts exactly the unit letters y, q, m, w, d, h, s in either
case, but the captured unit is forwarded to `moment#add` case-sensitively:
y/Y add years, Q quarters, M months, m minutes, w/W weeks, d days, h/H
hours, s/S seconds, while q and D are dropped by moment's duration
normalization and shift nothing. -/
theorem C3_template_placeholder_expansion (d now : MDateTime)
    (fmt filename pre suf : String)
    (hpre : braceFree pre) (hsuf : braceFree suf) (hfn : braceFree filename)
    (hfmt : braceFree fmt) :
    (processTemplate (pre ++ "{{date}}" ++ suf) d now fmt filename
        = pre ++ filename ++ suf)
    ∧ (processTemplate (pre ++ "{{time}}" ++ suf) d now fmt filename
        = pre ++ momentFormat now "HH:mm" ++ suf)
    ∧ (processTemplate (pre ++ "{{title}}" ++ suf) d now fmt filename
        = pre ++ filename ++ suf)
    ∧ (processTemplate (pre ++ "{{yesterday}}" ++ suf) d now fmt filename
        = pre ++ momentFormat (addDays (-1) d) fmt ++ suf)
    ∧ (processTemplate (pre ++ "{{tomorrow}}" ++ suf) d now fmt filename
        = pre ++ momentFormat (addDays 1 d) fmt ++ suf)
    ∧ (∀ (w : List Char), w = ['d','a','t','e'] ∨ w = ['t','i','m','e'] →
        ∀ (sgn : Char), sgn = '+' ∨ sgn = '-' →
        ∀ (ds : List Char), ds ≠ [] → (∀ c ∈ ds, isDigitChar c = true) →
        ∀ (u : Char), isUnitChar u = true →
        ∀ (F : List Char), F ≠ [] →
          (∀ c ∈ F, c ≠ '{' ∧ c ≠ '}' ∧ c ≠ '\n' ∧ c ≠ '\x0d') →
          processTemplate
              ⟨pre.data ++ '{' :: '{' ::
                (w ++ sgn :: (ds ++ u :: ':' :: (F ++ '}' :: '}' :: suf.data)))⟩
              d now fmt filename
            = ⟨pre.data ++ ((momentFormat (momentAdd (signedValue (decide (sgn = '+')) ds) u
                (setTimeOfDay d now.time)) ⟨trimChars F⟩).data ++ suf.data)⟩)
    ∧ (∀ (w : List Char), w = ['d','a','t','e'] ∨ w = ['t','i','m','e'] →
        ∀ (sgn : Char), sgn = '+' ∨ sgn = '-' →
        ∀ (ds : List Char), ds ≠ [] → (∀ c ∈ ds, isDigitChar c = true) →
        ∀ (u : Char), isUnitChar u = true →
          processTemplate
              ⟨pre.data ++ '{' :: '{' :: (w ++ sgn :: (ds ++ u :: '}' :: '}' :: suf.data))⟩
              d now fmt filename
            = ⟨pre.data ++ ((momentFormat (momentAdd (signedValue (decide (sgn = '+')) ds) u
                (setTimeOfDay d now.time)) fmt).data ++ suf.data)⟩)
    ∧ (∀ (c : Char) (rest : List Char),
        (matchCalc ('+' :: '1' :: c :: '}' :: '}' :: rest)).isSome = isUnitChar c)
    ∧ (∀ c : Char, isUnitChar c = true ↔
        c = 'y' ∨ c = 'q' ∨ c = 'm' ∨ c = 'w' ∨ c = 'd' ∨ c = 'h' ∨ c = 's'
        ∨ c = 'Y' ∨ c = 'Q' ∨ c = 'M' ∨ c = 'W' ∨ c = 'D' ∨ c = 'H' ∨ c = 'S')
    ∧ (∀ (n : Int) (t : MDateTime),
        momentAdd n 'y' t = addMonths (12 * n) t
        ∧ momentAdd n 'Y' t = addMonths (12 * n) t
        ∧ momentAdd n 'Q' t = addMonths (3 * n) t
        ∧ momentAdd n 'M' t = addMonths n t
        ∧ momentAdd n 'm' t = addSeconds (60 * n) t
        ∧ momentAdd n 'w' t = addDays (7 * n) t
        ∧ momentAdd n 'W' t = addDays (7 * n) t
        ∧ momentAdd n 'd' t = addDays n t
        ∧ momentAdd n 'h' t = addSeconds (3600 * n) t
        ∧ momentAdd n 'H' t = addSeconds (3600 * n) t
        ∧ momentAdd n 's' t = addSeconds n t
        ∧ momentAdd n 'S' t = addSeconds n t
        ∧ momentAdd n 'q' t = t
        ∧ momentAdd n 'D' t = t) := by
  refine ⟨tplExpand_date d now fmt filename pre suf hpre hsuf hfn,
    tplExpand_time d now fmt filename pre suf hpre hsuf,
    tplExpand_title d now fmt filename pre suf hpre hsuf hfn,
    tplExpand_yesterday d now fmt filename pre suf hpre hsuf hfmt,
    tplExpand_tomorrow d now fmt filename pre suf hpre hsuf,
    ?_, ?_, matchCalc_unit_iff, ?_, ?_⟩
  · intro w hw sgn hsgn ds hdsne hds u hu F hFne hF
    exact tplExpand_param_fmt d now fmt filename pre suf hpre hsuf hw hsgn hdsne hds hu hFne hF
  · intro w hw sgn hsgn ds hdsne hds u hu
    exact tplExpand_param_nofmt d now fmt filename pre suf hpre hsuf hw hsgn hdsne hds hu hfmt
  · intro c
    simp [isUnitChar]
  · intro n t
    exact ⟨rfl, rfl, rfl, rfl, rfl, rfl, rfl, rfl, rfl, rfl, rfl, rfl, rfl, rfl⟩

theorem C3_witness :
    processTemplate ("# " ++ "{{date}}" ++ "!") ⟨⟨2026, 1, 31⟩, ⟨0, 0, 0⟩⟩
        ⟨⟨2026, 5, 12⟩, ⟨14, 30, 45⟩⟩ "[Q]Q-YYYY" "Q1-2026"
      = "# " ++ "Q1-2026" ++ "!" :=
  (C3_template_placeholder_expansion ⟨⟨2026, 1, 31⟩, ⟨0, 0, 0⟩⟩
    ⟨⟨2026, 5, 12⟩, ⟨14, 30, 45⟩⟩ "[Q]Q-YYYY" "Q1-2026" "# " "!"
    (by decide) (by decide) (by decide) (by decide)).1

/-- C4: expanding `{{date+1d}}` against the target date 2026-01-31 yields
2026-02-01 (at the current wall-clock time of day) rendered with the
configured default format. -/
theorem C4_date_plus_one_day (t0 : MTime) (now : MDateTime) (fmt filename : String)
    (hfmt : braceFree fmt) :
    processTemplate "{{date+1d}}" ⟨⟨2026, 1, 31⟩, t0⟩ now fmt filename
      = momentFormat ⟨⟨2026, 2, 1⟩, now.time⟩ fmt := by
  have htpl : ("{{date+1d}}" : String)
      = ⟨("" : String).data ++ '{' :: '{' ::
          (['d','a','t','e'] ++ '+' :: (['1'] ++ 'd' :: '}' :: '}' :: ("" : String).data))⟩ := by
    apply String.ext
    rfl
  rw [htpl]
  rw [tplExpand_param_nofmt ⟨⟨2026, 1, 31⟩, t0⟩ now fmt filename "" ""
    (by intro c hc; simp at hc) (by intro c hc; simp at hc)
    (Or.inl rfl) (Or.inl rfl) (by simp) (by decide) (by decide) hfmt]
  have harith : momentAdd (signedValue (decide ('+' = '+')) ['1']) 'd'
      (setTimeOfDay ⟨⟨2026, 1, 31⟩, t0⟩ now.time) = ⟨⟨2026, 2, 1⟩, now.time⟩ := by
    show ({ date := civilFromDays (daysFromCivil ⟨2026, 1, 31⟩ + 1),
            time := now.time } : MDateTime) = _
    rfl
  rw [harith]
  apply String.ext
  simp

theorem C4_witness :
    processTemplate "{{date+1d}}" ⟨⟨2026, 1, 31⟩, ⟨0, 0, 0⟩⟩
        ⟨⟨2026, 5, 12⟩, ⟨9, 30, 0⟩⟩ "YYYY-MM-DD" "x"
      = momentFormat ⟨⟨2026, 2, 1⟩, ⟨9, 30, 0⟩⟩ "YYYY-MM-DD" :=
  C4_date_plus_one_day ⟨0, 0, 0⟩ ⟨⟨2026, 5, 12⟩, ⟨9, 30, 0⟩⟩ "YYYY-MM-DD" "x" (by decide)

/-- C5: expanding `{{date:YYYY}}` yields the four-digit year of the target
date, whatever the configured default format is (for years between 0 and
9999, which the `YYYY` token renders with exactly four digits). -/
theorem C5_date_custom_year_format (d now : MDateTime) (fmt filename pre suf : String)
    (hpre : braceFree pre) (hsuf : braceFree suf)
    (hy0 : 0 ≤ d.date.year) (hy : d.date.year ≤ 9999) :
    processTemplate (pre ++ "{{date:YYYY}}" ++ suf) d now fmt filename
      = pre ++ (⟨pad4 d.date.year.natAbs⟩ : String) ++ suf
    ∧ ((⟨pad4 d.date.year.natAbs⟩ : String)).length = 4 := by
  constructor
  · have htpl : (pre ++ "{{date:YYYY}}" ++ suf)
        = ⟨pre.data ++ '{' :: '{' :: (['d','a','t','e'] ++ ':'
            :: (['Y','Y','Y','Y'] ++ '}' :: '}' :: suf.data))⟩ := by
      apply String.ext
      simp [String.data_append]
    rw [htpl]
    rw [tplExpand_param_onlyfmt d now fmt filename pre suf hpre hsuf (Or.inl rfl)
      (by decide) (by decide)]
    apply String.ext
    have hfmt4 : momentFormat (setTimeOfDay d now.time) ⟨trimChars ['Y','Y','Y','Y']⟩
        = ⟨pad4 d.date.year.natAbs⟩ := by
      show (⟨formatTokens _ false ['Y','Y','Y','Y']⟩ : String) = _
      simp only [formatTokens]
      rw [show yearChars (setTimeOfDay d now.time).date.year = pad4 d.date.year.natAbs from by
        unfold yearChars
        rw [if_neg (by simp [setTimeOfDay]; omega)]
        rfl]
      simp
    rw [hfmt4]
    simp [String.data_append]
  · exact pad4_length (by omega)

theorem C5_witness :
    processTemplate ("" ++ "{{date:YYYY}}" ++ "") ⟨⟨987, 6, 5⟩, ⟨1, 2, 3⟩⟩
        ⟨⟨2026, 5, 12⟩, ⟨9, 30, 0⟩⟩ "[Q]Q-YYYY" "x"
      = "" ++ (⟨pad4 (987 : Int).natAbs⟩ : String) ++ ""
    ∧ ((⟨pad4 ((987 : Int)).natAbs⟩ : String)).length = 4 :=
  C5_date_custom_year_format ⟨⟨987, 6, 5⟩, ⟨1, 2, 3⟩⟩ ⟨⟨2026, 5, 12⟩, ⟨9, 30, 0⟩⟩
    "[Q]Q-YYYY" "x" "" "" (by intro c hc; simp at hc) (by intro c hc; simp at hc)
    (by decide) (by decide)

/-- C6: a template in which none of the six placeholder matchers succeeds
anywhere is returned unchanged by template expansion, so expansion is
idempotent on such text; unrecognized placeholders pass through unchanged. -/
theorem C6_no_placeholder_identity (tpl : String) (d now : MDateTime)
    (fmt filename : String) (h : noRecognizedPlaceholder tpl = true) :
    processTemplate tpl d now fmt filename = tpl
    ∧ processTemplate (processTemplate tpl d now fmt filename) d now fmt filename
        = processTemplate tpl d now fmt filename := by
  simp only [noRecognizedPlaceholder, Bool.and_eq_true, Bool.not_eq_true'] at h
  obtain ⟨⟨⟨⟨⟨h1, h2⟩, h3⟩, h4⟩, h5⟩, h6⟩ := h
  have e : processTemplate tpl d now fmt filename = tpl := by
    apply String.ext
    show runReplace _ (runReplace _ (runReplace _ (runReplace _ (runReplace _ (runReplace _
        tpl.data))))) = tpl.data
    rw [show runReplace (stepSimple ['d','a','t','e'] filename.data) tpl.data = tpl.data from
      scanReplaceF_id_of_noMatch (fun l hl => stepSimple_none_of_matchSimple hl) tpl.data _ h1]
    rw [show runReplace (stepSimple ['t','i','m','e'] (momentFormat now "HH:mm").data) tpl.data
        = tpl.data from
      scanReplaceF_id_of_noMatch (fun l hl => stepSimple_none_of_matchSimple hl) tpl.data _ h2]
    rw [show runReplace (stepSimple ['t','i','t','l','e'] filename.data) tpl.data = tpl.data from
      scanReplaceF_id_of_noMatch (fun l hl => stepSimple_none_of_matchSimple hl) tpl.data _ h3]
    rw [show runReplace (stepParam d now fmt) tpl.data = tpl.data from
      scanReplaceF_id_of_noMatch (fun l hl => stepParam_none_of_matchParam hl) tpl.data _ h4]
    rw [show runReplace (stepSimple ['y','e','s','t','e','r','d','a','y']
        (momentFormat (addDays (-1) d) fmt).data) tpl.data = tpl.data from
      scanReplaceF_id_of_noMatch (fun l hl => stepSimple_none_of_matchSimple hl) tpl.data _ h5]
    rw [show runReplace (stepSimple ['t','o','m','o','r','r','o','w']
        (momentFormat (addDays 1 d) fmt).data) tpl.data = tpl.data from
      scanReplaceF_id_of_noMatch (fun l hl => stepSimple_none_of_matchSimple hl) tpl.data _ h6]
  exact ⟨e, by rw [e, e]⟩

theorem C6_witness :
    processTemplate "notes {{custom}} and {date} end" ⟨⟨2026, 1, 31⟩, ⟨0, 0, 0⟩⟩
        ⟨⟨2026, 5, 12⟩, ⟨9, 30, 0⟩⟩ "YYYY" "x"
      = "notes {{custom}} and {date} end" :=
  (C6_no_placeholder_identity "notes {{custom}} and {date} end" ⟨⟨2026, 1, 31⟩, ⟨0, 0, 0⟩⟩
    ⟨⟨2026, 5, 12⟩, ⟨9, 30, 0⟩⟩ "YYYY" "x" (by decide)).1

theorem getTemplateInfo_effects (env : CreateEnv) (template : String) (st : RunState) :
    ((YearlyNotesTpl.getTemplateInfo env template st).2).opened = st.opened
    ∧ ((YearlyNotesTpl.getTemplateInfo env template st).2).cbFiles = st.cbFiles
    ∧ ((YearlyNotesTpl.getTemplateInfo env template st).2).created = st.created
    ∧ ((YearlyNotesTpl.getTemplateInfo env template st).2).vault = st.vault := by
  unfold YearlyNotesTpl.getTemplateInfo
  repeat' first
    | split
    | simp

theorem yearlyCreateFile_failure (env : CreateEnv) (date : MDateTime)
    (format folder template path filename msg : String) (st : RunState)
    (hnofile : getAbstractFileByPath st.vault path ≠ some .tfile)
    (hcreate : env.createResult = .error msg) :
    ((YearlyNotesTpl.createFile env date format folder template path filename st).2 = none
      ↔ strIncludes msg "File already exists" = true
        ∧ getAbstractFileByPath env.vaultAfterFailure path = some .tfile)
    ∧ ((YearlyNotesTpl.createFile env date format folder template path filename st).2 = none →
        (YearlyNotesTpl.createFile env date format folder template path filename st).1.opened
          = st.opened ++ [path]
        ∧ (YearlyNotesTpl.createFile env date format folder template path filename st).1.cbFiles
          = st.cbFiles ++ [path]
        ∧ (YearlyNotesTpl.createFile env date format folder template path filename st).1.created
          = st.created)
    ∧ ((YearlyNotesTpl.createFile env date format folder template path filename st).2 ≠ none →
        (YearlyNotesTpl.createFile env date format folder template path filename st).2 = some msg
        ∧ (YearlyNotesTpl.createFile env date format folder template path filename st).1.opened
          = st.opened
        ∧ (YearlyNotesTpl.createFile env date format folder template path filename st).1.created
          = st.created) := by
  unfold YearlyNotesTpl.createFile
  cases h : getAbstractFileByPath st.vault path with
  | some af =>
      cases af with
      | tfile => exact absurd h hnofile
      | tfolder =>
          simp only [hcreate]
          obtain ⟨e1, e2, e3, e4⟩ := getTemplateInfo_effects env template
            (if folder ≠ "" ∧ getAbstractFileByPath st.vault (normalizePath folder) = none then
              { st with vault := (normalizePath folder, .tfolder) :: st.vault,
                        createdFolders := st.createdFolders ++ [normalizePath folder] }
             else st)
          by_cases hmsg : strIncludes msg "File already exists" = true
          · simp only [hmsg, if_true]
            cases h2 : getAbstractFileByPath env.vaultAfterFailure path with
            | some af2 =>
                cases af2 with
                | tfile =>
                    simp [openAndCallback, e1, e2, e3]
                    constructor <;> split <;> simp
                | tfolder =>
                    simp [openAndCallback, hmsg, h2, e1, e2, e3]
                    constructor <;> split <;> rfl
            | none =>
                simp [openAndCallback, hmsg, h2, e1, e2, e3]
                constructor <;> split <;> rfl
          · simp [openAndCallback, hmsg, e1, e2, e3]
            constructor <;> split <;> rfl
  | none =>
      simp only [hcreate]
      obtain ⟨e1, e2, e3, e4⟩ := getTemplateInfo_effects env template
        (if folder ≠ "" ∧ getAbstractFileByPath st.vault (normalizePath folder) = none then
          { st with vault := (normalizePath folder, .tfolder) :: st.vault,
                    createdFolders := st.createdFolders ++ [normalizePath folder] }
         else st)
      by_cases hmsg : strIncludes msg "File already exists" = true
      · simp only [hmsg, if_true]
        cases h2 : getAbstractFileByPath env.vaultAfterFailure path with
        | some af2 =>
            cases af2 with
            | tfile =>
                simp [openAndCallback, e1, e2, e3]
                constructor <;> split <;> simp
            | tfolder =>
                simp [openAndCallback, hmsg, h2, e1, e2, e3]
                constructor <;> split <;> rfl
        | none =>
            simp [openAndCallback, hmsg, h2, e1, e2, e3]
            constructor <;> split <;> rfl
      · simp [openAndCallback, hmsg, e1, e2, e3]
        constructor <;> split <;> rfl


theorem quarterlyCreateFile_failure (env : CreateEnv)
    (path filename msg : String) (st : RunState)
    (hnofile : getAbstractFileByPath st.vault path ≠ some .tfile)
    (hcreate : env.createResult = .error msg) :
    ((QuarterlyNotes.createFile env path filename st).2 = none
      ↔ strIncludes msg "File already exists" = true
        ∧ getAbstractFileByPath env.vaultAfterFailure path = some .tfile)
    ∧ ((QuarterlyNotes.createFile env path filename st).2 = none →
        (QuarterlyNotes.createFile env path filename st).1.opened = st.opened ++ [path]
        ∧ (QuarterlyNotes.createFile env path filename st).1.cbFiles = st.cbFiles ++ [path]
        ∧ (QuarterlyNotes.createFile env path filename st).1.created = st.created)
    ∧ ((QuarterlyNotes.createFile env path filename st).2 ≠ none →
        (QuarterlyNotes.createFile env path filename st).2 = some msg
        ∧ (QuarterlyNotes.createFile env path filename st).1.opened = st.opened
        ∧ (QuarterlyNotes.createFile env path filename st).1.created = st.created) := by
  unfold QuarterlyNotes.createFile
  cases h : getAbstractFileByPath st.vault path with
  | some af =>
      cases af with
      | tfile => exact absurd h hnofile
      | tfolder =>
          simp only [hcreate]
          by_cases hmsg : strIncludes msg "File already exists" = true
          · simp only [hmsg, if_true]
            cases h2 : getAbstractFileByPath env.vaultAfterFailure path with
            | some af2 =>
                cases af2 with
                | tfile => simp [openAndCallback, hmsg, h2]
                | tfolder => simp [openAndCallback, hmsg, h2]
            | none => simp [openAndCallback, hmsg, h2]
          · simp [openAndCallback, hmsg]
  | none =>
      simp only [hcreate]
      by_cases hmsg : strIncludes msg "File already exists" = true
      · simp only [hmsg, if_true]
        cases h2 : getAbstractFileByPath env.vaultAfterFailure path with
        | some af2 =>
            cases af2 with
            | tfile => simp [openAndCallback, hmsg, h2]
            | tfolder => simp [openAndCallback, hmsg, h2]
        | none => simp [openAndCallback, hmsg, h2]
      · simp [openAndCallback, hmsg]


/-- C1 counterexample: the fallback yearly resolver (yearlyNotes.ts) has no
catch handler, so a creation failure whose message indicates the file
already exists, and whose file is then present at the computed path, is
still propagated to the caller with nothing opened — against the claim
that every resolution call swallows exactly such failures. -/
theorem C1_counterexample :
    (YearlyNotesFallback.tryToCreateYearlyNote
        { confirm := .accept, createResult := .error "File already exists",
          vaultAfterFailure := [("2026.md", .tfile)], templateResolves := false,
          templateRead := .ok "", foldInfo := false,
          now := ⟨⟨2026, 5, 12⟩, ⟨0, 0, 0⟩⟩ }
        {} ⟨⟨2026, 5, 12⟩, ⟨0, 0, 0⟩⟩ (initState [])).2 = some "File already exists"
    ∧ strIncludes "File already exists" "File already exists" = true
    ∧ getAbstractFileByPath [("2026.md", .tfile)]
        (YearlyNotesFallback.notePath ⟨⟨2026, 5, 12⟩, ⟨0, 0, 0⟩⟩) = some .tfile
    ∧ (YearlyNotesFallback.tryToCreateYearlyNote
        { confirm := .accept, createResult := .error "File already exists",
          vaultAfterFailure := [("2026.md", .tfile)], templateResolves := false,
          templateRead := .ok "", foldInfo := false,
          now := ⟨⟨2026, 5, 12⟩, ⟨0, 0, 0⟩⟩ }
        {} ⟨⟨2026, 5, 12⟩, ⟨0, 0, 0⟩⟩ (initState [])).1.opened = [] := by
  refine ⟨rfl, rfl, by decide, rfl⟩

/-- C1 (amended): in the resolvers that wrap creation in a catch handler —
the quarterly resolver and the template-based yearly resolver — a creation
failure is swallowed if and only if its message contains
`File already exists` and a note file is then found at the computed path;
in that case the existing file is opened and passed to the callback with
exactly one note opened and nothing created, and any other creation
failure is re-thrown with nothing opened.  (The fallback yearly resolver
of yearlyNotes.ts propagates every creation failure, see the
counterexample.) -/
theorem C1_create_failure_swallowed_iff_exists (env : CreateEnv) (date : MDateTime)
    (format folder template path filename msg : String) (st : RunState)
    (hnofile : getAbstractFileByPath st.vault path ≠ some .tfile)
    (hcreate : env.createResult = .error msg) :
    (((QuarterlyNotes.createFile env path filename st).2 = none
      ↔ strIncludes msg "File already exists" = true
        ∧ getAbstractFileByPath env.vaultAfterFailure path = some .tfile)
    ∧ ((QuarterlyNotes.createFile env path filename st).2 = none →
        (QuarterlyNotes.createFile env path filename st).1.opened = st.opened ++ [path]
        ∧ (QuarterlyNotes.createFile env path filename st).1.cbFiles = st.cbFiles ++ [path]
        ∧ (QuarterlyNotes.createFile env path filename st).1.created = st.created)
    ∧ ((QuarterlyNotes.createFile env path filename st).2 ≠ none →
        (QuarterlyNotes.createFile env path filename st).2 = some msg
        ∧ (QuarterlyNotes.createFile env path filename st).1.opened = st.opened
        ∧ (QuarterlyNotes.createFile env path filename st).1.created = st.created))
    ∧ (((YearlyNotesTpl.createFile env date format folder template path filename st).2 = none
      ↔ strIncludes msg "File already exists" = true
        ∧ getAbstractFileByPath env.vaultAfterFailure path = some .tfile)
    ∧ ((YearlyNotesTpl.createFile env date format folder template path filename st).2 = none →
        (YearlyNotesTpl.createFile env date format folder template path filename st).1.opened
          = st.opened ++ [path]
        ∧ (YearlyNotesTpl.createFile env date format folder template path filename st).1.cbFiles
          = st.cbFiles ++ [path]
        ∧ (YearlyNotesTpl.createFile env date format folder template path filename st).1.created
          = st.created)
    ∧ ((YearlyNotesTpl.createFile env date format folder template path filename st).2 ≠ none →
        (YearlyNotesTpl.createFile env date format folder template path filename st).2 = some msg
        ∧ (YearlyNotesTpl.createFile env date format folder template path filename st).1.opened
          = st.opened
        ∧ (YearlyNotesTpl.createFile env date format folder template path filename st).1.created
          = st.created)) :=
  ⟨quarterlyCreateFile_failure env path filename msg st hnofile hcreate,
   yearlyCreateFile_failure env date format folder template path filename msg st
     hnofile hcreate⟩

theorem C1_witness :
    ((QuarterlyNotes.createFile
        { confirm := .accept, createResult := .error "File already exists",
          vaultAfterFailure := [("Q/Q1-2026.md", .tfile)], templateResolves := false,
          templateRead := .ok "", foldInfo := false,
          now := ⟨⟨2026, 5, 12⟩, ⟨0, 0, 0⟩⟩ }
        "Q/Q1-2026.md" "Q1-2026" (initState [])).2 = none
      ↔ strIncludes "File already exists" "File already exists" = true
        ∧ getAbstractFileByPath [("Q/Q1-2026.md", .tfile)] "Q/Q1-2026.md" = some .tfile) := by
  exact (C1_create_failure_swallowed_iff_exists
    { confirm := .accept, createResult := .error "File already exists",
      vaultAfterFailure := [("Q/Q1-2026.md", .tfile)], templateResolves := false,
      templateRead := .ok "", foldInfo := false, now := ⟨⟨2026, 5, 12⟩, ⟨0, 0, 0⟩⟩ }
    ⟨⟨2026, 5, 12⟩, ⟨0, 0, 0⟩⟩ "YYYY" "" "" "Q/Q1-2026.md" "Q1-2026"
    "File already exists" (initState []) (by decide) rfl).1.1

/-- C2: when a note file already exists at the computed path, each
`openOrCreate` resolver (quarterly, template-based yearly and fallback
yearly) opens that existing file with the creation flag false; in
particular the vault and the creation log are unchanged, so the creation
path is never invoked and no write side effect occurs. -/
theorem C2_existing_file_opens_without_create (env : CreateEnv) (s : ISettings)
    (ps : Option PeriodSettings) (date : MDateTime) (st : RunState)
    (hq : getAbstractFileByPath st.vault (QuarterlyNotes.notePath s date)
      = some AbstractFile.tfile)
    (hy : getAbstractFileByPath st.vault (YearlyNotesTpl.notePath ps date)
      = some AbstractFile.tfile)
    (hf : getAbstractFileByPath st.vault (YearlyNotesFallback.notePath date)
      = some AbstractFile.tfile) :
    (QuarterlyNotes.openOrCreateQuarterlyNote env s date st
      = (openAndCallback (QuarterlyNotes.notePath s date) st, none, false)
    ∧ (QuarterlyNotes.openOrCreateQuarterlyNote env s date st).1.vault = st.vault
    ∧ (QuarterlyNotes.openOrCreateQuarterlyNote env s date st).1.created = st.created)
    ∧ (YearlyNotesTpl.openOrCreateYearlyNote env s ps date st
      = (openAndCallback (YearlyNotesTpl.notePath ps date) st, none, false)
    ∧ (YearlyNotesTpl.openOrCreateYearlyNote env s ps date st).1.vault = st.vault
    ∧ (YearlyNotesTpl.openOrCreateYearlyNote env s ps date st).1.created = st.created)
    ∧ (YearlyNotesFallback.openOrCreateYearlyNote env s date st
      = (openAndCallback (YearlyNotesFallback.notePath date) st, none, false)
    ∧ (YearlyNotesFallback.openOrCreateYearlyNote env s date st).1.vault = st.vault
    ∧ (YearlyNotesFallback.openOrCreateYearlyNote env s date st).1.created
        = st.created) := by
  have hq2 : getAbstractFileByPath st.vault
      (normalizePath ((QuarterlyNotes.getQuarterlyNoteSettings s).folder ++ "/"
        ++ momentFormat date (QuarterlyNotes.getQuarterlyNoteSettings s).format ++ ".md"))
      = some AbstractFile.tfile := hq
  have e1 : QuarterlyNotes.openOrCreateQuarterlyNote env s date st
      = (openAndCallback (QuarterlyNotes.notePath s date) st, none, false) := by
    simp only [QuarterlyNotes.openOrCreateQuarterlyNote]
    rw [hq2]
    rfl
  have e2 : YearlyNotesTpl.openOrCreateYearlyNote env s ps date st
      = (openAndCallback (YearlyNotesTpl.notePath ps date) st, none, false) := by
    simp only [YearlyNotesTpl.openOrCreateYearlyNote]
    rw [hy]
  have e3 : YearlyNotesFallback.openOrCreateYearlyNote env s date st
      = (openAndCallback (YearlyNotesFallback.notePath date) st, none, false) := by
    simp only [YearlyNotesFallback.openOrCreateYearlyNote]
    rw [hf]
  refine ⟨⟨e1, ?_, ?_⟩, ⟨e2, ?_, ?_⟩, ⟨e3, ?_, ?_⟩⟩ <;>
    simp [e1, e2, e3, openAndCallback]

theorem C2_witness :
    (QuarterlyNotes.openOrCreateQuarterlyNote
        { confirm := .accept, createResult := .ok (), vaultAfterFailure := [],
          templateResolves := false, templateRead := .ok "", foldInfo := false,
          now := ⟨⟨2026, 5, 12⟩, ⟨0, 0, 0⟩⟩ }
        {} ⟨⟨2026, 5, 12⟩, ⟨0, 0, 0⟩⟩
        (initState [("Q2-2026.md", .tfile), ("2026.md", .tfile)])
      = (openAndCallback (QuarterlyNotes.notePath {} ⟨⟨2026, 5, 12⟩, ⟨0, 0, 0⟩⟩)
          (initState [("Q2-2026.md", .tfile), ("2026.md", .tfile)]), none, false))
    ∧ (QuarterlyNotes.openOrCreateQuarterlyNote
        { confirm := .accept, createResult := .ok (), vaultAfterFailure := [],
          templateResolves := false, templateRead := .ok "", foldInfo := false,
          now := ⟨⟨2026, 5, 12⟩, ⟨0, 0, 0⟩⟩ }
        {} ⟨⟨2026, 5, 12⟩, ⟨0, 0, 0⟩⟩
        (initState [("Q2-2026.md", .tfile), ("2026.md", .tfile)])).1.vault
      = (initState [("Q2-2026.md", .tfile), ("2026.md", .tfile)]).vault
    ∧ (QuarterlyNotes.openOrCreateQuarterlyNote
        { confirm := .accept, createResult := .ok (), vaultAfterFailure := [],
          templateResolves := false, templateRead := .ok "", foldInfo := false,
          now := ⟨⟨2026, 5, 12⟩, ⟨0, 0, 0⟩⟩ }
        {} ⟨⟨2026, 5, 12⟩, ⟨0, 0, 0⟩⟩
        (initState [("Q2-2026.md", .tfile), ("2026.md", .tfile)])).1.created
      = (initState [("Q2-2026.md", .tfile), ("2026.md", .tfile)]).created :=
  (C2_existing_file_opens_without_create
    { confirm := .accept, createResult := .ok (), vaultAfterFailure := [],
      templateResolves := false, templateRead := .ok "", foldInfo := false,
      now := ⟨⟨2026, 5, 12⟩, ⟨0, 0, 0⟩⟩ }
    {} none ⟨⟨2026, 5, 12⟩, ⟨0, 0, 0⟩⟩
    (initState [("Q2-2026.md", .tfile), ("2026.md", .tfile)])
    (by decide) (by decide) (by decide)).1

/-- C7: with the confirm-before-create setting enabled, every resolver
(quarterly, template-based yearly, fallback yearly and monthly) presents
its confirmation prompt before any file-creating action; on decline or
dismissal the run ends with only the prompt recorded — no file is created
and nothing else in the state changes — and on accept the run continues
exactly as the respective create routine on the prompted state. -/
theorem C7_confirmation_gate (menv : MonthlyNotes.MonthlyEnv) (env : CreateEnv)
    (s : ISettings) (ps : Option PeriodSettings) (date : MDateTime) (st : RunState)
    (hC : s.shouldConfirmBeforeCreate = true) :
    (env.confirm = .decline →
      QuarterlyNotes.tryToCreateQuarterlyNote env s date st
        = ({ st with dialogs := st.dialogs ++ ["New Quarterly Note"] }, none)
      ∧ YearlyNotesTpl.tryToCreateYearlyNote env s ps date st
        = ({ st with dialogs := st.dialogs ++ ["New Yearly Note"] }, none)
      ∧ YearlyNotesFallback.tryToCreateYearlyNote env s date st
        = ({ st with dialogs := st.dialogs ++ ["New Yearly Note"] }, none)
      ∧ MonthlyNotes.tryToCreateMonthlyNote menv env s date st
        = ({ st with dialogs := st.dialogs ++ ["New Monthly Note"] }, none))
    ∧ (env.confirm = .accept →
      QuarterlyNotes.tryToCreateQuarterlyNote env s date st
        = QuarterlyNotes.createFile env (QuarterlyNotes.notePath s date)
            (momentFormat date (QuarterlyNotes.getQuarterlyNoteSettings s).format)
            { st with dialogs := st.dialogs ++ ["New Quarterly Note"] }
      ∧ YearlyNotesTpl.tryToCreateYearlyNote env s ps date st
        = YearlyNotesTpl.createFile env date
            (YearlyNotesTpl.getYearlyNoteSettings ps).format
            (YearlyNotesTpl.getYearlyNoteSettings ps).folder
            (YearlyNotesTpl.getYearlyNoteSettings ps).template
            (YearlyNotesTpl.notePath ps date)
            (momentFormat date (YearlyNotesTpl.getYearlyNoteSettings ps).format)
            { st with dialogs := st.dialogs ++ ["New Yearly Note"] }
      ∧ YearlyNotesFallback.tryToCreateYearlyNote env s date st
        = YearlyNotesFallback.createFile env date
            { st with dialogs := st.dialogs ++ ["New Yearly Note"] }
      ∧ MonthlyNotes.tryToCreateMonthlyNote menv env s date st
        = (openAndCallback (menv.create
              { st with dialogs := st.dialogs ++ ["New Monthly Note"] }).2
            (menv.create
              { st with dialogs := st.dialogs ++ ["New Monthly Note"] }).1, none)) := by
  constructor
  · intro hd
    refine ⟨?_, ?_, ?_, ?_⟩ <;>
      simp [QuarterlyNotes.tryToCreateQuarterlyNote, YearlyNotesTpl.tryToCreateYearlyNote,
        YearlyNotesFallback.tryToCreateYearlyNote, MonthlyNotes.tryToCreateMonthlyNote,
        createConfirmationDialog, hC, hd]
  · intro ha
    refine ⟨?_, ?_, ?_, ?_⟩ <;>
      (simp [QuarterlyNotes.tryToCreateQuarterlyNote, YearlyNotesTpl.tryToCreateYearlyNote,
        YearlyNotesFallback.tryToCreateYearlyNote, MonthlyNotes.tryToCreateMonthlyNote,
        YearlyNotesTpl.notePath, createConfirmationDialog, hC, ha]
       try rfl)

theorem C7_witness :
    QuarterlyNotes.tryToCreateQuarterlyNote
        { confirm := .decline, createResult := .ok (), vaultAfterFailure := [],
          templateResolves := false, templateRead := .ok "", foldInfo := false,
          now := ⟨⟨2026, 5, 12⟩, ⟨0, 0, 0⟩⟩ }
        { shouldConfirmBeforeCreate := true } ⟨⟨2026, 5, 12⟩, ⟨0, 0, 0⟩⟩ (initState [])
      = ({ initState [] with dialogs := ["New Quarterly Note"] }, none)
    ∧ YearlyNotesTpl.tryToCreateYearlyNote
        { confirm := .decline, createResult := .ok (), vaultAfterFailure := [],
          templateResolves := false, templateRead := .ok "", foldInfo := false,
          now := ⟨⟨2026, 5, 12⟩, ⟨0, 0, 0⟩⟩ }
        { shouldConfirmBeforeCreate := true } none ⟨⟨2026, 5, 12⟩, ⟨0, 0, 0⟩⟩
        (initState [])
      = ({ initState [] with dialogs := ["New Yearly Note"] }, none)
    ∧ YearlyNotesFallback.tryToCreateYearlyNote
        { confirm := .decline, createResult := .ok (), vaultAfterFailure := [],
          templateResolves := false, templateRead := .ok "", foldInfo := false,
          now := ⟨⟨2026, 5, 12⟩, ⟨0, 0, 0⟩⟩ }
        { shouldConfirmBeforeCreate := true } ⟨⟨2026, 5, 12⟩, ⟨0, 0, 0⟩⟩ (initState [])
      = ({ initState [] with dialogs := ["New Yearly Note"] }, none)
    ∧ MonthlyNotes.tryToCreateMonthlyNote
        { format := "MMM", create := fun st => (st, "m.md") }
        { confirm := .decline, createResult := .ok (), vaultAfterFailure := [],
          templateResolves := false, templateRead := .ok "", foldInfo := false,
          now := ⟨⟨2026, 5, 12⟩, ⟨0, 0, 0⟩⟩ }
        { shouldConfirmBeforeCreate := true } ⟨⟨2026, 5, 12⟩, ⟨0, 0, 0⟩⟩ (initState [])
      = ({ initState [] with dialogs := ["New Monthly Note"] }, none) :=
  (C7_confirmation_gate
    { format := "MMM", create := fun st => (st, "m.md") }
    { confirm := .decline, createResult := .ok (), vaultAfterFailure := [],
      templateResolves := false, templateRead := .ok "", foldInfo := false,
      now := ⟨⟨2026, 5, 12⟩, ⟨0, 0, 0⟩⟩ }
    { shouldConfirmBeforeCreate := true } none ⟨⟨2026, 5, 12⟩, ⟨0, 0, 0⟩⟩
    (initState []) rfl).1 rfl

/-- C8 counterexample: when reading the configured template fails, the
note is created with the empty string as content — `fileContent || ""` on
the expansion of the empty template — not with a default header, even
though the failure is logged and notified; and when the template path
does not resolve at all, the empty template is used silently, with no log
and no notice. -/
theorem C8_counterexample :
    ((YearlyNotesTpl.tryToCreateYearlyNote
        { confirm := .accept, createResult := .ok (), vaultAfterFailure := [],
          templateResolves := true, templateRead := .error "EACCES", foldInfo := false,
          now := ⟨⟨2026, 5, 12⟩, ⟨0, 0, 0⟩⟩ }
        {} (some { format := none, folder := none, template := some "T.md" })
        ⟨⟨2026, 5, 12⟩, ⟨0, 0, 0⟩⟩ (initState [])).1.created = [("2026.md", "")]
    ∧ (YearlyNotesTpl.tryToCreateYearlyNote
        { confirm := .accept, createResult := .ok (), vaultAfterFailure := [],
          templateResolves := true, templateRead := .error "EACCES", foldInfo := false,
          now := ⟨⟨2026, 5, 12⟩, ⟨0, 0, 0⟩⟩ }
        {} (some { format := none, folder := none, template := some "T.md" })
        ⟨⟨2026, 5, 12⟩, ⟨0, 0, 0⟩⟩ (initState [])).1.logs
      = ["Failed to read the yearly note template"]
    ∧ (YearlyNotesTpl.tryToCreateYearlyNote
        { confirm := .accept, createResult := .ok (), vaultAfterFailure := [],
          templateResolves := true, templateRead := .error "EACCES", foldInfo := false,
          now := ⟨⟨2026, 5, 12⟩, ⟨0, 0, 0⟩⟩ }
        {} (some { format := none, folder := none, template := some "T.md" })
        ⟨⟨2026, 5, 12⟩, ⟨0, 0, 0⟩⟩ (initState [])).1.notices
      = ["Failed to read the yearly note template"]
    ∧ ("" : String) ≠ "# " ++ "2026" ++ "\n")
    ∧ ((YearlyNotesTpl.tryToCreateYearlyNote
        { confirm := .accept, createResult := .ok (), vaultAfterFailure := [],
          templateResolves := false, templateRead := .ok "unreachable", foldInfo := false,
          now := ⟨⟨2026, 5, 12⟩, ⟨0, 0, 0⟩⟩ }
        {} (some { format := none, folder := none, template := some "T.md" })
        ⟨⟨2026, 5, 12⟩, ⟨0, 0, 0⟩⟩ (initState [])).1.created = [("2026.md", "")]
    ∧ (YearlyNotesTpl.tryToCreateYearlyNote
        { confirm := .accept, createResult := .ok (), vaultAfterFailure := [],
          templateResolves := false, templateRead := .ok "unreachable", foldInfo := false,
          now := ⟨⟨2026, 5, 12⟩, ⟨0, 0, 0⟩⟩ }
        {} (some { format := none, folder := none, template := some "T.md" })
        ⟨⟨2026, 5, 12⟩, ⟨0, 0, 0⟩⟩ (initState [])).1.logs = []
    ∧ (YearlyNotesTpl.tryToCreateYearlyNote
        { confirm := .accept, createResult := .ok (), vaultAfterFailure := [],
          templateResolves := false, templateRead := .ok "unreachable", foldInfo := false,
          now := ⟨⟨2026, 5, 12⟩, ⟨0, 0, 0⟩⟩ }
        {} (some { format := none, folder := none, template := some "T.md" })
        ⟨⟨2026, 5, 12⟩, ⟨0, 0, 0⟩⟩ (initState [])).1.notices = []) := by
  exact ⟨⟨rfl, rfl, rfl, by decide⟩, rfl, rfl, rfl⟩

/-- C8 (amended): when the configured template resolves but reading it
throws, the failure is logged and notified non-fatally, the template is
treated as empty, and the note is still created and opened — but its
content is the empty string (the `fileContent || ""` of the empty
expansion), not a default header.  (An unresolvable template path yields
the empty template silently, see the counterexample.) -/
theorem C8_template_read_failure (env : CreateEnv) (date : MDateTime)
    (format folder template path filename e : String) (st : RunState)
    (hres : env.templateResolves = true)
    (hread : env.templateRead = .error e)
    (hp1 : normalizePath template ≠ "/") (hp2 : normalizePath template ≠ "")
    (hnofile : getAbstractFileByPath st.vault path ≠ some AbstractFile.tfile)
    (hok : env.createResult = .ok ()) :
    (YearlyNotesTpl.createFile env date format folder template path filename st).1.created
      = st.created ++ [(path, "")]
    ∧ (YearlyNotesTpl.createFile env date format folder template path filename st).1.logs
      = st.logs ++ ["Failed to read the yearly note template"]
    ∧ (YearlyNotesTpl.createFile env date format folder template path filename st).1.notices
      = st.notices ++ ["Failed to read the yearly note template"]
    ∧ (YearlyNotesTpl.createFile env date format folder template path filename st).1.opened
      = st.opened ++ [path]
    ∧ (YearlyNotesTpl.createFile env date format folder template path filename st).2
      = none := by
  have htpl : ∀ st2 : RunState, YearlyNotesTpl.getTemplateInfo env template st2
      = (("", false),
         { st2 with logs := st2.logs ++ ["Failed to read the yearly note template"],
                    notices := st2.notices ++ ["Failed to read the yearly note template"] }) := by
    intro st2
    simp only [YearlyNotesTpl.getTemplateInfo]
    rw [if_neg (show ¬(normalizePath template = "/" ∨ normalizePath template = "") from
          fun hc => hc.elim hp1 hp2),
        if_neg (by simp [hres]), hread]
  have hpc : jsOr (processTemplate "" date env.now format filename) "" = "" := rfl
  unfold YearlyNotesTpl.createFile
  cases h : getAbstractFileByPath st.vault path with
  | some af =>
      cases af with
      | tfile => exact absurd h hnofile
      | tfolder =>
          simp only [htpl, hok]
          refine ⟨?_, ?_, ?_, ?_, ?_⟩ <;> (try split) <;> simp [openAndCallback, hpc]
  | none =>
      simp only [htpl, hok]
      refine ⟨?_, ?_, ?_, ?_, ?_⟩ <;> (try split) <;> simp [openAndCallback, hpc]

theorem C8_witness :
    (YearlyNotesTpl.createFile
        { confirm := .accept, createResult := .ok (), vaultAfterFailure := [],
          templateResolves := true, templateRead := .error "EACCES", foldInfo := false,
          now := ⟨⟨2026, 5, 12⟩, ⟨0, 0, 0⟩⟩ }
        ⟨⟨2026, 5, 12⟩, ⟨0, 0, 0⟩⟩ "YYYY" "" "T.md" "2026.md" "2026"
        (initState [])).1.created = [("2026.md", "")]
    ∧ (YearlyNotesTpl.createFile
        { confirm := .accept, createResult := .ok (), vaultAfterFailure := [],
          templateResolves := true, templateRead := .error "EACCES", foldInfo := false,
          now := ⟨⟨2026, 5, 12⟩, ⟨0, 0, 0⟩⟩ }
        ⟨⟨2026, 5, 12⟩, ⟨0, 0, 0⟩⟩ "YYYY" "" "T.md" "2026.md" "2026"
        (initState [])).1.logs = ["Failed to read the yearly note template"]
    ∧ (YearlyNotesTpl.createFile
        { confirm := .accept, createResult := .ok (), vaultAfterFailure := [],
          templateResolves := true, templateRead := .error "EACCES", foldInfo := false,
          now := ⟨⟨2026, 5, 12⟩, ⟨0, 0, 0⟩⟩ }
        ⟨⟨2026, 5, 12⟩, ⟨0, 0, 0⟩⟩ "YYYY" "" "T.md" "2026.md" "2026"
        (initState [])).1.notices = ["Failed to read the yearly note template"]
    ∧ (YearlyNotesTpl.createFile
        { confirm := .accept, createResult := .ok (), vaultAfterFailure := [],
          templateResolves := true, templateRead := .error "EACCES", foldInfo := false,
          now := ⟨⟨2026, 5, 12⟩, ⟨0, 0, 0⟩⟩ }
        ⟨⟨2026, 5, 12⟩, ⟨0, 0, 0⟩⟩ "YYYY" "" "T.md" "2026.md" "2026"
        (initState [])).1.opened = ["2026.md"]
    ∧ (YearlyNotesTpl.createFile
        { confirm := .accept, createResult := .ok (), vaultAfterFailure := [],
          templateResolves := true, templateRead := .error "EACCES", foldInfo := false,
          now := ⟨⟨2026, 5, 12⟩, ⟨0, 0, 0⟩⟩ }
        ⟨⟨2026, 5, 12⟩, ⟨0, 0, 0⟩⟩ "YYYY" "" "T.md" "2026.md" "2026"
        (initState [])).2 = none :=
  C8_template_read_failure
    { confirm := .accept, createResult := .ok (), vaultAfterFailure := [],
      templateResolves := true, templateRead := .error "EACCES", foldInfo := false,
      now := ⟨⟨2026, 5, 12⟩, ⟨0, 0, 0⟩⟩ }
    ⟨⟨2026, 5, 12⟩, ⟨0, 0, 0⟩⟩ "YYYY" "" "T.md" "2026.md" "2026" "EACCES"
    (initState []) rfl rfl (by decide) (by decide) (by decide) rfl

/-- C9: when no notes folder is configured (empty after trimming) or the
configured folder path resolves to nothing in the vault,
`getAllQuarterlyNotes` and `getAllYearlyNotes` return the empty index and
scan no file at all (the visited-file list is empty, so the vault is never
walked). -/
theorem C9_no_folder_empty_index (ps : Option PeriodSettings)
    (vault : Stores.FolderVault) (today : MDate)
    (hq : (Stores.getQuarterlyNoteSettings ps).2 = ""
      ∨ Stores.lookupTree vault (normalizePath (Stores.getQuarterlyNoteSettings ps).2) = none)
    (hy : (Stores.getYearlyNoteSettings ps).2 = ""
      ∨ Stores.lookupTree vault (normalizePath (Stores.getYearlyNoteSettings ps).2) = none) :
    Stores.getAllQuarterlyNotes ps vault today = ([], [])
    ∧ Stores.getAllYearlyNotes ps vault today = ([], []) := by
  constructor
  · simp only [Stores.getAllQuarterlyNotes]
    rcases hq with h | h
    · rw [if_pos h]
    · by_cases h0 : (Stores.getQuarterlyNoteSettings ps).2 = ""
      · rw [if_pos h0]
      · rw [if_neg h0, h]
  · simp only [Stores.getAllYearlyNotes]
    rcases hy with h | h
    · rw [if_pos h]
    · by_cases h0 : (Stores.getYearlyNoteSettings ps).2 = ""
      · rw [if_pos h0]
      · rw [if_neg h0, h]

theorem C9_witness :
    Stores.getAllQuarterlyNotes none [("Periodic", .file "x")] ⟨2026, 5, 12⟩ = ([], [])
    ∧ Stores.getAllYearlyNotes none [("Periodic", .file "x")] ⟨2026, 5, 12⟩ = ([], []) :=
  C9_no_folder_empty_index none [("Periodic", .file "x")] ⟨2026, 5, 12⟩
    (Or.inl rfl) (Or.inl rfl)

theorem mem_upsert {k b x v : String} {a : List (String × String)}
    (h : (k, b) ∈ Stores.upsert x v a) : (k = x ∧ b = v) ∨ (k, b) ∈ a := by
  induction a with
  | nil =>
      simp [Stores.upsert] at h
      exact Or.inl h
  | cons p rest ih =>
      obtain ⟨k2, v2⟩ := p
      simp only [Stores.upsert] at h
      by_cases he : k2 = x
      · rw [if_pos he] at h
        rcases List.mem_cons.mp h with h1 | h1
        · simp at h1
          exact Or.inl h1
        · exact Or.inr (he ▸ List.mem_cons_of_mem _ h1)
      · rw [if_neg he] at h
        rcases List.mem_cons.mp h with h1 | h1
        · exact Or.inr (h1 ▸ List.mem_cons_self _ _)
        · rcases ih h1 with h2 | h2
          · exact Or.inl h2
          · exact Or.inr (List.mem_cons_of_mem _ h2)

theorem mem_foldl_index (f : String → Option MDate) (uid : MDate → String) :
    ∀ (l : List String) (acc : List (String × String)) (k b : String),
      (k, b) ∈ l.foldl (fun a x =>
          match f x with
          | some d => Stores.upsert (uid d) x a
          | none => a) acc →
      (k, b) ∈ acc ∨ ∃ d, f b = some d ∧ k = uid d := by
  intro l
  induction l with
  | nil =>
      intro acc k b h
      exact Or.inl (by simpa using h)
  | cons x xs ih =>
      intro acc k b h
      rw [List.foldl_cons] at h
      rcases ih _ k b h with h1 | h1
      · cases hf : f x with
        | some d =>
            rw [hf] at h1
            rcases mem_upsert h1 with ⟨hk, hb⟩ | h2
            · exact Or.inr ⟨d, by rw [hb]; exact hf, hk⟩
            · exact Or.inl h2
        | none =>
            rw [hf] at h1
            exact Or.inl h1
      · exact Or.inr h1

/-- C10 counterexample: with the configured quarterly format
`YYYY/[Q]Q` (a folder-carrying format) and a configured folder holding a
file with basename `Q1`, the built index contains the entry
`("quarter-2026-1", "Q1")` although `Q1` does not strictly parse under the
configured format — the indexer parses only the filename portion of the
format, `format.split("/").pop() || format`. -/
theorem C10_counterexample :
    (Stores.getAllQuarterlyNotes
        (some { format := some "YYYY/[Q]Q", folder := some "P", template := none })
        [("P", .dir [.file "Q1"])] ⟨2026, 5, 12⟩).1 = [("quarter-2026-1", "Q1")]
    ∧ momentParseStrict "Q1" "YYYY/[Q]Q" ⟨2026, 5, 12⟩ = none := by
  exact ⟨rfl, rfl⟩

/-- C10 (amended): every entry of the index built by
`getAllQuarterlyNotes` (respectively `getAllYearlyNotes`) has as key the
Date-UID `quarter-<year>-<quarter>` (respectively `year-<year>`) of the
date obtained by strictly parsing the stored file's basename with the
filename portion of the configured format — `format.split("/").pop() ||
format` — not with the whole configured format; a basename that does not
parse under that filename portion never appears in the index. -/
theorem C10_index_key_from_filename_parse (ps : Option PeriodSettings)
    (vault : Stores.FolderVault) (today : MDate) (k b : String) :
    ((k, b) ∈ (Stores.getAllQuarterlyNotes ps vault today).1 →
      ∃ d, Stores.getDateFromQuarterlyFile ps today b = some d
        ∧ k = Stores.getQuarterlyDateUID d)
    ∧ ((k, b) ∈ (Stores.getAllYearlyNotes ps vault today).1 →
      ∃ d, Stores.getDateFromYearlyFile ps today b = some d
        ∧ k = Stores.getYearlyDateUID d) := by
  constructor
  · intro h
    simp only [Stores.getAllQuarterlyNotes] at h
    by_cases h0 : (Stores.getQuarterlyNoteSettings ps).2 = ""
    · rw [if_pos h0] at h
      simp at h
    · rw [if_neg h0] at h
      cases hl : Stores.lookupTree vault
          (normalizePath (Stores.getQuarterlyNoteSettings ps).2) with
      | none =>
          rw [hl] at h
          simp at h
      | some root =>
          rw [hl] at h
          have h2 : (k, b) ∈ (Stores.recurseFiles root).foldl
              (fun a x =>
                match Stores.getDateFromQuarterlyFile ps today x with
                | some d => Stores.upsert (Stores.getQuarterlyDateUID d) x a
                | none => a) [] := h
          rcases mem_foldl_index (Stores.getDateFromQuarterlyFile ps today)
            Stores.getQuarterlyDateUID _ _ k b h2 with h3 | h3
          · simp at h3
          · exact h3
  · intro h
    simp only [Stores.getAllYearlyNotes] at h
    by_cases h0 : (Stores.getYearlyNoteSettings ps).2 = ""
    · rw [if_pos h0] at h
      simp at h
    · rw [if_neg h0] at h
      cases hl : Stores.lookupTree vault
          (normalizePath (Stores.getYearlyNoteSettings ps).2) with
      | none =>
          rw [hl] at h
          simp at h
      | some root =>
          rw [hl] at h
          have h2 : (k, b) ∈ (Stores.recurseFiles root).foldl
              (fun a x =>
                match Stores.getDateFromYearlyFile ps today x with
                | some d => Stores.upsert (Stores.getYearlyDateUID d) x a
                | none => a) [] := h
          rcases mem_foldl_index (Stores.getDateFromYearlyFile ps today)
            Stores.getYearlyDateUID _ _ k b h2 with h3 | h3
          · simp at h3
          · exact h3

theorem C10_witness :
    ∃ d, Stores.getDateFromQuarterlyFile
        (some { format := some "YYYY/[Q]Q", folder := some "P", template := none })
        ⟨2026, 5, 12⟩ "Q1" = some d
      ∧ "quarter-2026-1" = Stores.getQuarterlyDateUID d :=
  (C10_index_key_from_filename_parse
    (some { format := some "YYYY/[Q]Q", folder := some "P", template := none })
    [("P", .dir [.file "Q1"])] ⟨2026, 5, 12⟩ "quarter-2026-1" "Q1").1 (by decide)

end CalendarPlugin
